import Mathlib

/-!
Verification of the change-detection and reconciliation engine of the
viwoods-sync importer (TypeScript sources under `src/`).

The embedding models:
- the data model of `src/types.ts` (`ImportManifest`, `PageData`, `BookResult`,
  `PageChange`, `ImportSummary`, the relevant subset of `ViwoodsSettings`);
- `analyzeChanges`, `recoverManifestFromExistingFiles` and `addHistoryEntry`
  from `src/utils/file-utils.ts`;
- `PageProcessor.importSelectedPages` / `importPage` and the artifact
  writers (`saveStrokeData`, `savePageImage`, `savePageSvg`, `savePageAudio`)
  from `src/services/page-processor.ts`;
- the `importInProgress` mutual-exclusion discipline of
  `ImportWorkflow.processNoteFile` from `src/services/import-workflow.ts`.

The Obsidian vault is modelled as a partial map from paths to file contents
(`Vault`).  Asynchronous vault calls are pure lookups/updates; a write-failure
oracle (`FailOracle`) decides which write calls throw, standing for the
storage layer's rejections.  External collaborators that the spec declares
out of scope (markdown rendering, image/SVG rendering, JSON stringification
of stroke arrays, date formatting, the system clock) are abstracted as an
environment `Env` of opaque pure functions; no claim depends on the bytes
they produce, only on which paths get written and when.
-/

/-- The vault storage abstraction: path to file content, `none` = no file. -/
abbrev Vault := String → Option String

/-- Write-failure oracle: for a path, `some e` means any `create`/`modify`
write to that path throws with message `e`. -/
abbrev FailOracle := String → Option String

/-- Set the file at `path` to `content` (models `vault.create`/`vault.modify`). -/
def vaultSet (v : Vault) (path content : String) : Vault :=
  fun p => if p = path then some content else v p

/-- Remove the file at `path` (models `vault.delete`). -/
def vaultErase (v : Vault) (path : String) : Vault :=
  fun p => if p = path then none else v p

/-- A fallible vault write.  Returns the new vault and `some errorMessage`
when the write threw (in which case the vault is unchanged). -/
def vaultWrite (failPaths : FailOracle) (v : Vault) (path content : String) :
    Vault × Option String :=
  match failPaths path with
  | some e => (v, some e)
  | none => (vaultSet v path content, none)

/-- One page record of `ImportManifest.importedPages` (src/types.ts). -/
structure PageRecord where
  fileName : String
  importDate : String
  imageHash : String
  displayImageHash : Option String
  geminiProcessed : Bool
  hasAudio : Option Bool
  lastModified : Option String
  size : Option Nat
  backgroundColor : Option String
  deriving DecidableEq, Repr

/-- One entry of `ImportManifest.history` (src/types.ts `ImportHistory`). -/
structure ImportHistory where
  date : String
  action : String
  pages : List Nat
  summary : String
  deriving DecidableEq, Repr

/-- The per-book import manifest (src/types.ts `ImportManifest`).
`importedPages` is a JS object keyed by page number; it is modelled as an
association list.  JS objects iterate numeric keys in ascending order; the
importer only ever inserts keys, so for the inputs of interest the list
order coincides with that iteration order. -/
structure ImportManifest where
  bookName : String
  totalPages : Nat
  importedPages : List (Nat × PageRecord)
  lastImport : String
  sourceFile : String
  version : String
  history : List ImportHistory
  deriving DecidableEq, Repr

/-- First-match lookup in `importedPages` (JS object property access). -/
def lookupRecord : List (Nat × PageRecord) → Nat → Option PageRecord
  | [], _ => none
  | e :: rest, n => if e.1 = n then some e.2 else lookupRecord rest n

/-- JS object property assignment: replace in place if the key exists,
otherwise append. -/
def setRecord : List (Nat × PageRecord) → Nat → PageRecord → List (Nat × PageRecord)
  | [], n, r => [(n, r)]
  | e :: rest, n, r => if e.1 = n then (n, r) :: rest else e :: setRecord rest n r

/-- A blob of bytes (JS `Blob`); `size` is the byte length. -/
structure Blob where
  bytes : String
  deriving DecidableEq, Repr

def Blob.size (b : Blob) : Nat := b.bytes.length

/-- The image part of a `PageData` (src/types.ts). -/
structure PageImage where
  blob : Blob
  hash : String
  deriving DecidableEq, Repr

/-- The audio part of a `PageData` (src/types.ts). -/
structure PageAudio where
  blob : Blob
  originalName : String
  name : String
  deriving DecidableEq, Repr

/-- One freshly parsed page (src/types.ts `PageData`).  `stroke` is the
`number[][]` array of `[x, y, timestamp]` points. -/
structure PageData where
  pageNum : Nat
  image : PageImage
  stroke : Option (List (List Int))
  audio : Option PageAudio
  deriving DecidableEq, Repr

/-- A freshly parsed archive (src/types.ts `BookResult`); out-of-scope
metadata and thumbnail are dropped, they never reach the verified core. -/
structure BookResult where
  bookName : String
  pages : List PageData
  deriving DecidableEq, Repr

/-- Page classification (src/types.ts `PageChange.type`). -/
inductive ChangeType where
  | new
  | modified
  | unchanged
  | deleted
  deriving DecidableEq, Repr, BEq

/-- One classification result (src/types.ts `PageChange`). -/
structure PageChange where
  pageNum : Nat
  type : ChangeType
  oldHash : Option String
  newHash : Option String
  hasAudioChange : Option Bool
  deriving DecidableEq, Repr

/-- One per-page failure record (src/types.ts `ImportSummary.errors` entry). -/
structure ImportError where
  page : Nat
  error : String
  deriving DecidableEq, Repr

/-- The import summary (src/types.ts `ImportSummary`). -/
structure ImportSummary where
  totalPages : Nat
  newPages : List Nat
  modifiedPages : List Nat
  unchangedPages : List Nat
  deletedPages : List Nat
  errors : List ImportError
  deriving DecidableEq, Repr

/-- Output format setting (src/types.ts `ViwoodsSettings.outputFormat`). -/
inductive OutputFormat where
  | png
  | svg
  | both
  deriving DecidableEq, Repr

/-- The subset of `ViwoodsSettings` (src/types.ts) read by the embedded
functions. -/
structure ViwoodsSettings where
  notesFolder : String
  imagesFolder : String
  audioFolder : String
  strokesFolder : String
  backgroundColor : String
  outputFormat : OutputFormat
  batchSize : Nat
  maxHistoryEntries : Nat
  deriving DecidableEq, Repr

/-- Environment of pure external collaborators: the clock and the rendering
functions the spec declares out of scope.  `renderPage` abstracts
`PageProcessor.buildPageContent` (pure markdown string building),
`processImage` abstracts `processImageWithBackground`, `strokesToSVG` the
SVG generator, `stringifyStroke` is `JSON.stringify` on the stroke array,
and `isoOfMs` is `new Date(ms).toISOString()`. -/
structure Env where
  now : String
  renderPage : BookResult → PageData → Nat → ImportManifest → Bool → Bool → String → String
  processImage : String → String → String
  strokesToSVG : List (List Int) → String
  stringifyStroke : List (List Int) → String
  isoOfMs : Nat → String

/-- `String(pageNum).padStart(3, '0')`. -/
def pad3 (n : Nat) : String :=
  let s := Nat.repr n
  String.mk (List.replicate (3 - s.length) '0') ++ s

/-- The page markdown file name, `Page NNN.md` (file-utils.ts line 45,
page-processor.ts line 485). -/
def pageFileName (pageNum : Nat) : String :=
  "Page " ++ pad3 pageNum ++ ".md"

/-- Path of the page markdown file inside the book folder. -/
def pageFilePath (bookFolder : String) (pageNum : Nat) : String :=
  bookFolder ++ "/" ++ pageFileName pageNum

/-- Path of the stroke JSON file (page-processor.ts lines 528-529). -/
def strokeFilePath (strokesFolder bookName : String) (pageNum : Nat) : String :=
  strokesFolder ++ "/" ++ bookName ++ "_page_" ++ pad3 pageNum ++ "_strokes.json"

/-- Path of the rasterized page image (page-processor.ts lines 550-551). -/
def imageFilePath (imagesFolder bookName : String) (pageNum : Nat) : String :=
  imagesFolder ++ "/" ++ bookName ++ "_page_" ++ pad3 pageNum ++ ".png"

/-- Path of the page SVG (page-processor.ts lines 578-579). -/
def svgFilePath (imagesFolder bookName : String) (pageNum : Nat) : String :=
  imagesFolder ++ "/" ++ bookName ++ "_page_" ++ pad3 pageNum ++ ".svg"

/-- Hex-digit test for the `[a-f0-9]` character class of the frontmatter
hash regex (file-utils.ts line 55). -/
def isHexChar (c : Char) : Bool :=
  c.isDigit || ('a' ≤ c && c ≤ 'f')

/-- Capture of the frontmatter regex (file-utils.ts line 51): the
characters after a leading dash-dash-dash-newline up to the first
subsequent newline-dash-dash-dash.  The capture group is lazy, so
`takeUntilClose` returns the characters before the FIRST closing
delimiter, or `none` if there is none (no regex match). -/
def takeUntilClose : List Char → Option (List Char)
  | [] => none
  | c :: rest =>
    if c = '\n' then
      match rest with
      | '-' :: '-' :: '-' :: _ => some []
      | _ => (takeUntilClose rest).map (fun tl => c :: tl)
    else
      (takeUntilClose rest).map (fun tl => c :: tl)

/-- The frontmatter block captured by the anchored frontmatter regex of
file-utils.ts line 51: the content must start with dash-dash-dash-newline,
and the capture runs to the first closing delimiter. -/
def splitFrontmatter (content : List Char) : Option (List Char) :=
  match content with
  | '-' :: '-' :: '-' :: '\n' :: rest => takeUntilClose rest
  | _ => none

/-- After the literal `original_image_hash:`: skip `\s*`, an optional `"`,
then capture a nonempty run of `[a-f0-9]` (file-utils.ts line 55). -/
def parseHashAfterColon (cs : List Char) : Option String :=
  let afterWs := cs.dropWhile (fun c => c.isWhitespace)
  let afterQuote :=
    match afterWs with
    | '"' :: rest => rest
    | _ => afterWs
  let digits := afterQuote.takeWhile isHexChar
  if digits.isEmpty then none else some (String.mk digits)

/-- First match of `/original_image_hash:\s*"?([a-f0-9]+)"?/` in the
frontmatter: scan for the first position where the whole pattern matches
(regex semantics: a position where the literal occurs but no hex digits
follow is skipped, the scan continues). -/
def findHashField : List Char → Option String
  | [] => none
  | c :: rest =>
    let here :=
      if ("original_image_hash:".data).isPrefixOf (c :: rest) then
        parseHashAfterColon ((c :: rest).drop ("original_image_hash:".data).length)
      else none
    match here with
    | some h => some h
    | none => findHashField rest

/-- The hash read from the on-disk page file's frontmatter
(file-utils.ts lines 44-65): `none` when the file does not exist, its
content has no frontmatter block, or the block has no parseable
`original_image_hash` field.  A read exception (caught at line 61) leaves
`fileHash` unset exactly like a missing file, so both collapse to `none`. -/
def resolveFileHash (vault : Vault) (bookFolder : String) (pageNum : Nat) : Option String :=
  match vault (pageFilePath bookFolder pageNum) with
  | none => none
  | some content =>
    match splitFrontmatter content.data with
    | none => none
    | some fm => findHashField fm

/-- JS `String.prototype.startsWith` (used at file-utils.ts lines 74-75),
as a structural prefix test on the character lists. -/
def strStartsWith (s pre : String) : Bool :=
  pre.data.isPrefixOf s.data

/-- JS `existing.fileHash || existing.manifestInfo.imageHash`
(file-utils.ts line 73): the empty string is falsy. -/
def jsOrHash (fileHash : Option String) (manifestHash : String) : String :=
  match fileHash with
  | some s => if s = "" then manifestHash else s
  | none => manifestHash

/-- The working map built at file-utils.ts lines 39-65: each manifest entry
paired with the hash found in the on-disk page file, if any. -/
def buildExistingMap (vault : Vault) (bookFolder : String)
    (importedPages : List (Nat × PageRecord)) :
    List (Nat × PageRecord × Option String) :=
  importedPages.map (fun e => (e.1, e.2, resolveFileHash vault bookFolder e.1))

/-- First-match lookup in the working map (JS `Map.get`). -/
def mapFind : List (Nat × PageRecord × Option String) → Nat → Option (PageRecord × Option String)
  | [], _ => none
  | e :: rest, n => if e.1 = n then some e.2 else mapFind rest n

/-- The classification of one fresh page against the working map
(file-utils.ts lines 67-92, as a pure per-page function). -/
def classifyPage (map : List (Nat × PageRecord × Option String)) (page : PageData) : PageChange :=
  match mapFind map page.pageNum with
  | none =>
    { pageNum := page.pageNum, type := ChangeType.new, oldHash := none,
      newHash := some page.image.hash, hasAudioChange := none }
  | some (rec, fileHash) =>
    let existingHash := jsOrHash fileHash rec.imageHash
    let isRecoveredHash := strStartsWith existingHash "recovered-"
    let isResetHash := strStartsWith existingHash "RESET-"
    let hashesMatch := existingHash = page.image.hash
    if isRecoveredHash || isResetHash then
      { pageNum := page.pageNum, type := ChangeType.modified, oldHash := some existingHash,
        newHash := some page.image.hash,
        hasAudioChange := some (page.audio.isSome != rec.hasAudio.getD false) }
    else if ¬hashesMatch then
      { pageNum := page.pageNum, type := ChangeType.modified, oldHash := some existingHash,
        newHash := some page.image.hash,
        hasAudioChange := some (page.audio.isSome != rec.hasAudio.getD false) }
    else
      { pageNum := page.pageNum, type := ChangeType.unchanged, oldHash := some existingHash,
        newHash := some page.image.hash, hasAudioChange := none }

/-- Push a classification into its summary bucket (the `summary.*.push`
calls at file-utils.ts lines 71, 80, 85, 88, 97). -/
def bucketPush (s : ImportSummary) (c : PageChange) : ImportSummary :=
  match c.type with
  | ChangeType.new => { s with newPages := s.newPages ++ [c.pageNum] }
  | ChangeType.modified => { s with modifiedPages := s.modifiedPages ++ [c.pageNum] }
  | ChangeType.unchanged => { s with unchangedPages := s.unchangedPages ++ [c.pageNum] }
  | ChangeType.deleted => { s with deletedPages := s.deletedPages ++ [c.pageNum] }

/-- The body of the fresh-page loop (file-utils.ts lines 67-92): classify,
record the change and its bucket, and delete the page from the working map. -/
def analyzeStep
    (st : List (Nat × PageRecord × Option String) × List PageChange × ImportSummary)
    (page : PageData) :
    List (Nat × PageRecord × Option String) × List PageChange × ImportSummary :=
  let (map, changes, summary) := st
  match mapFind map page.pageNum with
  | none =>
    (map,
     changes ++ [{ pageNum := page.pageNum, type := ChangeType.new, oldHash := none,
                   newHash := some page.image.hash, hasAudioChange := none }],
     { summary with newPages := summary.newPages ++ [page.pageNum] })
  | some (rec, fileHash) =>
    let existingHash := jsOrHash fileHash rec.imageHash
    let isRecoveredHash := strStartsWith existingHash "recovered-"
    let isResetHash := strStartsWith existingHash "RESET-"
    let hashesMatch := existingHash = page.image.hash
    let map' := map.filter (fun e => e.1 != page.pageNum)
    if isRecoveredHash || isResetHash then
      (map',
       changes ++ [{ pageNum := page.pageNum, type := ChangeType.modified,
                     oldHash := some existingHash, newHash := some page.image.hash,
                     hasAudioChange := some (page.audio.isSome != rec.hasAudio.getD false) }],
       { summary with modifiedPages := summary.modifiedPages ++ [page.pageNum] })
    else if ¬hashesMatch then
      (map',
       changes ++ [{ pageNum := page.pageNum, type := ChangeType.modified,
                     oldHash := some existingHash, newHash := some page.image.hash,
                     hasAudioChange := some (page.audio.isSome != rec.hasAudio.getD false) }],
       { summary with modifiedPages := summary.modifiedPages ++ [page.pageNum] })
    else
      (map',
       changes ++ [{ pageNum := page.pageNum, type := ChangeType.unchanged,
                     oldHash := some existingHash, newHash := some page.image.hash,
                     hasAudioChange := none }],
       { summary with unchangedPages := summary.unchangedPages ++ [page.pageNum] })

/-- The leftover-map pass (file-utils.ts lines 94-98): every page number
still in the working map is reported deleted. -/
def deletedStep (st : List PageChange × ImportSummary)
    (e : Nat × PageRecord × Option String) : List PageChange × ImportSummary :=
  let hash := jsOrHash e.2.2 e.2.1.imageHash
  (st.1 ++ [{ pageNum := e.1, type := ChangeType.deleted, oldHash := some hash,
              newHash := none, hasAudioChange := none }],
   { st.2 with deletedPages := st.2.deletedPages ++ [e.1] })

/-- `analyzeChanges` (file-utils.ts lines 20-102).  The `app` vault access
is the `vault` parameter; the function performs no writes. -/
def analyzeChanges (vault : Vault) (bookResult : BookResult)
    (existingManifest : Option ImportManifest) (settings : ViwoodsSettings) :
    List PageChange × ImportSummary :=
  let summary0 : ImportSummary :=
    { totalPages := bookResult.pages.length, newPages := [], modifiedPages := [],
      unchangedPages := [], deletedPages := [], errors := [] }
  let bookFolder := settings.notesFolder ++ "/" ++ bookResult.bookName
  match existingManifest with
  | none =>
    (bookResult.pages.map (fun page =>
        { pageNum := page.pageNum, type := ChangeType.new, oldHash := none,
          newHash := some page.image.hash, hasAudioChange := none }),
     { summary0 with newPages := bookResult.pages.map (fun page => page.pageNum) })
  | some m =>
    let map0 := buildExistingMap vault bookFolder m.importedPages
    let (remaining, changes1, summary1) :=
      bookResult.pages.foldl analyzeStep (map0, [], summary0)
    let (changes2, summary2) := remaining.foldl deletedStep (changes1, summary1)
    (changes2, summary2)

/-- `PageProcessor.saveStrokeData` (page-processor.ts lines 527-539): if the
stroke file exists it is rewritten only when `shouldUpdate`; a missing
stroke file is always created. -/
def saveStrokeData (failPaths : FailOracle) (v : Vault) (env : Env)
    (stroke : List (List Int)) (bookName : String) (pageNum : Nat)
    (strokesFolder : String) (shouldUpdate : Bool) : Vault × Option String :=
  let strokePath := strokeFilePath strokesFolder bookName pageNum
  let strokeContent := env.stringifyStroke stroke
  match v strokePath with
  | some _ =>
    if shouldUpdate then vaultWrite failPaths v strokePath strokeContent else (v, none)
  | none => vaultWrite failPaths v strokePath strokeContent

/-- `PageProcessor.savePageImage` (page-processor.ts lines 541-574).  Its
body is wrapped in a try/catch whose catch returns `undefined`, so write
failures never escape: the function returns only the vault.  When an
existing image needs updating it is deleted first, so a failing re-create
leaves the image file absent. -/
def savePageImage (failPaths : FailOracle) (v : Vault) (env : Env)
    (settings : ViwoodsSettings) (page : PageData) (bookName : String)
    (pageNum : Nat) (imagesFolder : String) (isNew isModified : Bool)
    (existingRec : Option PageRecord) : Vault :=
  let imagePath := imageFilePath imagesFolder bookName pageNum
  let needsImageUpdate := isNew || isModified
  let backgroundChanged := existingRec.bind (fun r => r.backgroundColor) ≠ some settings.backgroundColor
  match v imagePath with
  | some _ =>
    if needsImageUpdate || backgroundChanged then
      let v1 := vaultErase v imagePath
      let res := vaultWrite failPaths v1 imagePath
        (env.processImage page.image.blob.bytes settings.backgroundColor)
      match res.2 with
      | none => res.1
      | some _ => v1
    else v
  | none =>
    let res := vaultWrite failPaths v imagePath
      (env.processImage page.image.blob.bytes settings.backgroundColor)
    match res.2 with
    | none => res.1
    | some _ => v

/-- `PageProcessor.savePageSvg` (page-processor.ts lines 576-588). -/
def savePageSvg (failPaths : FailOracle) (v : Vault) (env : Env)
    (stroke : List (List Int)) (bookName : String) (pageNum : Nat)
    (imagesFolder : String) (shouldUpdate : Bool) : Vault × Option String :=
  let svgContent := env.strokesToSVG stroke
  let svgPath := svgFilePath imagesFolder bookName pageNum
  match v svgPath with
  | some _ =>
    if shouldUpdate then vaultWrite failPaths v svgPath svgContent else (v, none)
  | none => vaultWrite failPaths v svgPath svgContent

/-- `PageProcessor.savePageAudio` (page-processor.ts lines 590-603): an
existing audio file is deleted and re-created when `shouldUpdate`; a
missing one is always created. -/
def savePageAudio (failPaths : FailOracle) (v : Vault) (audio : PageAudio)
    (audioFolder : String) (shouldUpdate : Bool) : Vault × Option String :=
  let audioPath := audioFolder ++ "/" ++ audio.name
  match v audioPath with
  | some _ =>
    if shouldUpdate then vaultWrite failPaths (vaultErase v audioPath) audioPath audio.blob.bytes
    else (v, none)
  | none => vaultWrite failPaths v audioPath audio.blob.bytes

/-- The page record written at page-processor.ts lines 511-520.  The
`geminiProcessed` flag is re-read from the (working) manifest so that
downstream enrichment survives re-import; `mPages` is that manifest's
`importedPages` at the time page `pd` is processed. -/
def importedRecordFor (env : Env) (settings : ViwoodsSettings)
    (mPages : List (Nat × PageRecord)) (pd : PageData) : PageRecord :=
  { fileName := pageFileName pd.pageNum,
    importDate := env.now,
    imageHash := pd.image.hash,
    displayImageHash := none,
    geminiProcessed := ((lookupRecord mPages pd.pageNum).map (fun r => r.geminiProcessed)).getD false,
    hasAudio := some pd.audio.isSome,
    lastModified := some env.now,
    size := some pd.image.blob.size,
    backgroundColor := some settings.backgroundColor }

/-- The artifact-write chain of `PageProcessor.importPage`
(page-processor.ts lines 476-508): stroke data, the page markdown, the
rasterized image (errors swallowed), the SVG, and the audio file, in source
order.  Returns the vault after the writes performed so far together with
the first raised error, if any: a raised error aborts the remaining steps,
exactly as the exception does in the source's try block. -/
def importPageBody (env : Env) (failPaths : FailOracle) (settings : ViwoodsSettings)
    (book : BookResult) (page : PageData) (pageNum : Nat)
    (bookFolder imagesFolder audioFolder strokesFolder : String)
    (manifest : ImportManifest) (isNew isModified : Bool) (recOpt : Option PageRecord)
    (v : Vault) : Vault × Option String :=
  let strokeRes :=
    match page.stroke with
    | some stroke =>
      saveStrokeData failPaths v env stroke book.bookName pageNum strokesFolder (isNew || isModified)
    | none => (v, none)
  match strokeRes.2 with
  | some e => (strokeRes.1, some e)
  | none =>
    let pageContent := env.renderPage book page pageNum manifest isNew isModified bookFolder
    let mdRes := vaultWrite failPaths strokeRes.1 (pageFilePath bookFolder pageNum) pageContent
    match mdRes.2 with
    | some e => (mdRes.1, some e)
    | none =>
      let v3 :=
        if settings.outputFormat = OutputFormat.png || settings.outputFormat = OutputFormat.both then
          savePageImage failPaths mdRes.1 env settings page book.bookName pageNum imagesFolder
            isNew isModified recOpt
        else mdRes.1
      let svgRes :=
        match page.stroke with
        | some stroke =>
          if settings.outputFormat = OutputFormat.svg || settings.outputFormat = OutputFormat.both then
            savePageSvg failPaths v3 env stroke book.bookName pageNum imagesFolder (isNew || isModified)
          else (v3, none)
        | none => (v3, none)
      match svgRes.2 with
      | some e => (svgRes.1, some e)
      | none =>
        match page.audio with
        | some audio => savePageAudio failPaths svgRes.1 audio audioFolder (isNew || isModified)
        | none => (svgRes.1, none)

/-- `PageProcessor.importPage` (page-processor.ts lines 453-525).  The state
is `(vault, manifest, summary)`.  The body of the source method is a single
try/catch: the requested page is looked up in the fresh book (a missing
page returns silently), `isNew`/`isModified` are derived and the
success-bucket push happens FIRST, then the write chain `importPageBody`
runs, then the manifest record update; a raised error is caught and
appended to `summary.errors`, keeping the effects already performed and
skipping the record update.  `hadManifest` records whether
`existingManifest` was non-null: in the source `manifest` aliases
`existingManifest` in that case, so the `isNew`/`isModified` reads go
through the working manifest. -/
def importPage (env : Env) (failPaths : FailOracle) (settings : ViwoodsSettings)
    (book : BookResult) (pageNum : Nat)
    (bookFolder imagesFolder audioFolder strokesFolder : String)
    (hadManifest : Bool)
    (st : Vault × ImportManifest × ImportSummary) :
    Vault × ImportManifest × ImportSummary :=
  let (v, manifest, summary) := st
  match book.pages.find? (fun p => p.pageNum == pageNum) with
  | none => (v, manifest, summary)
  | some page =>
    let recOpt := if hadManifest then lookupRecord manifest.importedPages pageNum else none
    let isNew := recOpt.isNone
    let isModified := recOpt.map (fun r => r.imageHash) ≠ some page.image.hash
    let summary1 :=
      if isNew then { summary with newPages := summary.newPages ++ [pageNum] }
      else if isModified then { summary with modifiedPages := summary.modifiedPages ++ [pageNum] }
      else { summary with unchangedPages := summary.unchangedPages ++ [pageNum] }
    let res := importPageBody env failPaths settings book page pageNum bookFolder imagesFolder
      audioFolder strokesFolder manifest isNew isModified recOpt v
    match res.2 with
    | some e =>
      (res.1, manifest,
       { summary1 with errors := summary1.errors ++ [{ page := pageNum, error := e }] })
    | none =>
      let newRec := importedRecordFor env settings manifest.importedPages page
      (res.1,
       { manifest with importedPages := setRecord manifest.importedPages pageNum newRec },
       summary1)

/-- The manifest `importSelectedPages` starts from (page-processor.ts lines
407-416): the existing manifest, or a fresh one, with `totalPages` raised
to `max(existing, freshBook.pages.length)`. -/
def startingManifest (env : Env) (book : BookResult)
    (existingManifest : Option ImportManifest) : ImportManifest :=
  let manifest0 :=
    match existingManifest with
    | some m => m
    | none =>
      { bookName := book.bookName, totalPages := 0, importedPages := [],
        lastImport := env.now, sourceFile := book.bookName, version := "1.1",
        history := [] }
  { manifest0 with totalPages := max manifest0.totalPages book.pages.length }

/-- `PageProcessor.importSelectedPages` (page-processor.ts lines 388-451).
The source partitions `pagesToImport` into fixed-size batches processed
with `Promise.all` and a 100 ms pause between batches; each page touches
only its own manifest key and its own page-derived paths, so the resulting
state is that of processing the caller-supplied list in order, which is how
it is modelled.  `ensureFolder` calls are idempotent folder creations on
the out-of-scope storage layer and are not part of the file map.  The
`onImportComplete` callback receives the returned summary and manifest; it
is the caller's, so the model simply returns both. -/
def importSelectedPages (env : Env) (failPaths : FailOracle)
    (settings : ViwoodsSettings) (book : BookResult) (pagesToImport : List Nat)
    (existingManifest : Option ImportManifest) (v0 : Vault) :
    Vault × ImportManifest × ImportSummary :=
  let bookFolder := settings.notesFolder ++ "/" ++ book.bookName
  let imagesFolder := bookFolder ++ "/" ++ settings.imagesFolder
  let audioFolder := bookFolder ++ "/" ++ settings.audioFolder
  let strokesFolder := bookFolder ++ "/" ++ settings.strokesFolder
  let manifest1 := startingManifest env book existingManifest
  let summary0 : ImportSummary :=
    { totalPages := pagesToImport.length, newPages := [], modifiedPages := [],
      unchangedPages := [], deletedPages := [], errors := [] }
  pagesToImport.foldl
    (fun st pageNum =>
      importPage env failPaths settings book pageNum bookFolder imagesFolder
        audioFolder strokesFolder existingManifest.isSome st)
    (v0, manifest1, summary0)

/-- All vault paths `importPage` may write or delete for a requested page
number: the stroke JSON, the page markdown, the PNG, the SVG, and the audio
file (whose name comes from the page's audio data, not the page number).
Empty when the page is not in the fresh book. -/
def touchedPaths (book : BookResult)
    (bookFolder imagesFolder audioFolder strokesFolder : String)
    (pageNum : Nat) : List String :=
  match book.pages.find? (fun p => p.pageNum == pageNum) with
  | none => []
  | some page =>
    [strokeFilePath strokesFolder book.bookName pageNum,
     pageFilePath bookFolder pageNum,
     imageFilePath imagesFolder book.bookName pageNum,
     svgFilePath imagesFolder book.bookName pageNum] ++
    (match page.audio with
     | some a => [audioFolder ++ "/" ++ a.name]
     | none => [])

/-- `addHistoryEntry` (file-utils.ts lines 120-126): prepend the new entry,
then truncate to `maxHistoryEntries` when over the cap. -/
def addHistoryEntry (manifest : ImportManifest) (action : String)
    (pages : List Nat) (summary : String) (maxHistoryEntries : Nat)
    (now : String) : ImportManifest :=
  let history1 := { date := now, action := action, pages := pages,
                    summary := summary : ImportHistory } :: manifest.history
  if history1.length > maxHistoryEntries then
    { manifest with history := history1.take maxHistoryEntries }
  else
    { manifest with history := history1 }

/-- A file listed in a book folder, as `recoverManifestFromExistingFiles`
sees it: name, content, and the `stat` fields it reads. -/
structure VaultFile where
  name : String
  content : String
  size : Nat
  mtime : Nat
  deriving DecidableEq, Repr

/-- JS `String.prototype.includes`: `listIncludes needle hay` is true when
`needle` occurs contiguously in `hay`. -/
def listIncludes (needle : List Char) : List Char → Bool
  | [] => needle.isPrefixOf []
  | c :: rest => needle.isPrefixOf (c :: rest) || listIncludes needle rest

/-- Match of the anchored page-file regex of file-utils.ts line 140:
exactly `Page `, three digits, `.md`; returns `parseInt` of the digits. -/
def matchPageFile (name : String) : Option Nat :=
  match name.data with
  | 'P' :: 'a' :: 'g' :: 'e' :: ' ' :: d1 :: d2 :: d3 :: '.' :: 'm' :: 'd' :: [] =>
    if d1.isDigit && d2.isDigit && d3.isDigit then
      some ((d1.toNat - 48) * 100 + (d2.toNat - 48) * 10 + (d3.toNat - 48))
    else none
  | _ => none

/-- The recovered record for one matched page file (file-utils.ts lines
146-159).  `imageStat` models `getAbstractFileByPath` on the images folder:
`some (size, mtime)` when the PNG exists. -/
def recoverRecord (imageStat : String → Option (Nat × Nat))
    (settings : ViwoodsSettings) (bookFolder bookName : String)
    (isoOfMs : Nat → String) (child : VaultFile) (pageNum : Nat) : PageRecord :=
  let hasGemini := listIncludes ("### Gemini Transcription".data) child.content.data
  let hasAudio := listIncludes ("🎙️ Audio Recording".data) child.content.data
  let imagePath := bookFolder ++ "/" ++ settings.imagesFolder ++ "/" ++
    bookName ++ "_page_" ++ pad3 pageNum ++ ".png"
  let imageHash :=
    match imageStat imagePath with
    | some (size, mtime) => "recovered-" ++ Nat.repr size ++ "-" ++ Nat.repr mtime
    | none => "recovered-unknown-" ++ Nat.repr pageNum
  { fileName := child.name,
    importDate := isoOfMs child.mtime,
    imageHash := imageHash,
    displayImageHash := none,
    geminiProcessed := hasGemini,
    hasAudio := some hasAudio,
    lastModified := some (isoOfMs child.mtime),
    size := some child.size,
    backgroundColor := none }

/-- One iteration of the folder scan of `recoverManifestFromExistingFiles`
(file-utils.ts lines 142-162): a non-matching child is skipped, a matching
one raises the running maximum and stores its recovered record. -/
def recoverStep (imageStat : String → Option (Nat × Nat))
    (settings : ViwoodsSettings) (bookFolder bookName : String)
    (isoOfMs : Nat → String)
    (st : Nat × List (Nat × PageRecord)) (child : VaultFile) :
    Nat × List (Nat × PageRecord) :=
  match matchPageFile child.name with
  | none => st
  | some pageNum =>
    (max st.1 pageNum,
     setRecord st.2 pageNum
       (recoverRecord imageStat settings bookFolder bookName isoOfMs child pageNum))

/-- The folder scan of `recoverManifestFromExistingFiles` (file-utils.ts
lines 142-162): fold over the folder's children accumulating the maximum
matched page number and the recovered page records. -/
def recoverScan (imageStat : String → Option (Nat × Nat))
    (settings : ViwoodsSettings) (bookFolder bookName : String)
    (isoOfMs : Nat → String) (children : List VaultFile) :
    Nat × List (Nat × PageRecord) :=
  children.foldl (recoverStep imageStat settings bookFolder bookName isoOfMs) (0, [])

/-- The maximum page number among the folder's files matching the page
regex, 0 when none match: the value `totalPages` receives at file-utils.ts
line 168 (`maxPageNum` there, accumulated at line 145). -/
def maxMatchedPage (children : List VaultFile) : Nat :=
  children.foldl
    (fun acc child =>
      match matchPageFile child.name with
      | none => acc
      | some pageNum => max acc pageNum) 0

/-- `recoverManifestFromExistingFiles` (file-utils.ts lines 128-176).
`children` is `none` when the book folder does not exist or is not a
folder.  A `some` result is the manifest the source persists via
`saveManifestFn` (a save failure is caught and logged, the manifest is
returned regardless); a `none` result performs no save at all. -/
def recoverManifestFromExistingFiles (children : Option (List VaultFile))
    (imageStat : String → Option (Nat × Nat)) (settings : ViwoodsSettings)
    (bookFolder bookName : String) (now : String) (isoOfMs : Nat → String) :
    Option ImportManifest :=
  match children with
  | none => none
  | some kids =>
    let scanned := recoverScan imageStat settings bookFolder bookName isoOfMs kids
    let manifest : ImportManifest :=
      { bookName := bookName, totalPages := scanned.1, importedPages := scanned.2,
        lastImport := now, sourceFile := bookName, version := "1.1", history := [] }
    if scanned.2.length > 0 then
      some (addHistoryEntry manifest "import" (scanned.2.map (fun e => e.1))
        "Manifest recovered from existing files" settings.maxHistoryEntries now)
    else none

/-- State of the import workflow's mutual-exclusion discipline
(import-workflow.ts lines 16, 34-39, 105-107).  `active` holds the ids of
accepted `processNoteFile` invocations whose try block has not finished;
`sideEffects` counts vault/manifest mutations performed by running bodies;
`rejected` logs the ids turned away at the entry check. -/
structure WorkflowState where
  importInProgress : Bool
  active : List Nat
  sideEffects : Nat
  rejected : List Nat
  deriving DecidableEq, Repr

/-- Events of the workflow model: a call to `processNoteFile` (the entry
check at lines 35-39 runs synchronously, with no await between the check
and the flag set, so check-and-set is atomic in the single-threaded host);
a side-effecting step of a running body; and the completion of a body,
successful or thrown-and-caught, which runs the `finally` at lines 105-107. -/
inductive WorkflowEvent where
  | call (id : Nat)
  | work (id : Nat)
  | complete (id : Nat) (success : Bool)
  deriving DecidableEq, Repr

/-- One transition of the workflow model. -/
def workflowStep (s : WorkflowState) (e : WorkflowEvent) : WorkflowState :=
  match e with
  | WorkflowEvent.call id =>
    if s.importInProgress then { s with rejected := s.rejected ++ [id] }
    else { s with importInProgress := true, active := s.active ++ [id] }
  | WorkflowEvent.work id =>
    if s.active.contains id then { s with sideEffects := s.sideEffects + 1 } else s
  | WorkflowEvent.complete id _ =>
    if s.active.contains id then
      { s with importInProgress := false, active := s.active.erase id }
    else s

/-- The workflow starts idle: `importInProgress = false` (line 16). -/
def initialWorkflowState : WorkflowState :=
  { importInProgress := false, active := [], sideEffects := 0, rejected := [] }

/-- Run a trace of workflow events from the initial state. -/
def runWorkflow (events : List WorkflowEvent) : WorkflowState :=
  events.foldl workflowStep initialWorkflowState

/-- The change reported for a leftover working-map entry
(file-utils.ts lines 94-98). -/
def deletedChangeOf (e : Nat × PageRecord × Option String) : PageChange :=
  { pageNum := e.1, type := ChangeType.deleted,
    oldHash := some (jsOrHash e.2.2 e.2.1.imageHash), newHash := none,
    hasAudioChange := none }

/-- The page numbers of the fresh pages classified `t` against the working
map, in book order: the bucket contents of the analyzer's summary. -/
def selectPages (map : List (Nat × PageRecord × Option String))
    (pages : List PageData) (t : ChangeType) : List Nat :=
  (pages.filter (fun p => (classifyPage map p).type == t)).map (fun p => p.pageNum)

/-- Concrete fixture: settings used by the evaluation witnesses. -/
def fxSettings : ViwoodsSettings :=
  { notesFolder := "Notes", imagesFolder := "img", audioFolder := "aud",
    strokesFolder := "str", backgroundColor := "white",
    outputFormat := OutputFormat.both, batchSize := 3, maxHistoryEntries := 10 }

/-- Concrete fixture: an environment with inert external collaborators. -/
def fxEnv : Env :=
  { now := "2026-01-01T00:00:00.000Z",
    renderPage := fun _ _ _ _ _ _ _ => "rendered",
    processImage := fun b _ => b,
    strokesToSVG := fun _ => "svg",
    stringifyStroke := fun _ => "strokes-json",
    isoOfMs := fun n => Nat.repr n }

/-- Concrete fixture: a page with the given number and image hash. -/
def fxPage (n : Nat) (h : String) : PageData :=
  { pageNum := n, image := { blob := { bytes := "img-bytes" }, hash := h },
    stroke := none, audio := none }

/-- Concrete fixture: a page that also carries stroke data. -/
def fxPageStroke (n : Nat) (h : String) : PageData :=
  { pageNum := n, image := { blob := { bytes := "img-bytes" }, hash := h },
    stroke := some [[1, 2, 3]], audio := none }

/-- Concrete fixture: a manifest record with the given image hash. -/
def fxRec (h : String) : PageRecord :=
  { fileName := "Page 001.md", importDate := "2025-01-01", imageHash := h,
    displayImageHash := none, geminiProcessed := false, hasAudio := some false,
    lastModified := none, size := none, backgroundColor := none }

/-- Concrete fixture: the empty vault. -/
def emptyVault : Vault := fun _ => none

/-- Concrete fixture: the oracle under which every write succeeds. -/
def noFail : FailOracle := fun _ => none

/-- Concrete fixture: a one-page manifest for book `B` with record hash `h`. -/
def fxManifest1 (h : String) : ImportManifest :=
  { bookName := "B", totalPages := 1, importedPages := [(1, fxRec h)],
    lastImport := "2025-01-01", sourceFile := "B", version := "1.1", history := [] }

/-- Concrete fixture for C2: the page file on disk has frontmatter hash
`abc123`, which overrides the manifest record's sentinel. -/
def fxVaultC2 : Vault := fun p =>
  if p = "Notes/B/Page 001.md" then
    some "---\noriginal_image_hash: \"abc123\"\npage: 1\n---\nbody"
  else none

/-- Concrete fixture for C1: writing the page-1 markdown file throws. -/
def fxFailPage1 : FailOracle := fun p =>
  if p = "Notes/B/Page 001.md" then some "disk full" else none

/-- Concrete fixture for C4: writing the page-3 markdown file throws. -/
def fxFailPage3 : FailOracle := fun p =>
  if p = "Notes/B/Page 003.md" then some "disk full" else none

/-- Concrete fixture: a five-page book for the C4 scenario. -/
def fxBook5 : BookResult :=
  { bookName := "B",
    pages := [fxPage 1 "h1", fxPage 2 "h2", fxPage 3 "h3", fxPage 4 "h4", fxPage 5 "h5"] }

/-- Concrete fixture: a one-page book for book `B`. -/
def fxBook1 (h : String) : BookResult :=
  { bookName := "B", pages := [fxPage 1 h] }

/-- Concrete fixture for C6: a manifest whose `totalPages` is already 8. -/
def fxManifest8 : ImportManifest :=
  { bookName := "B", totalPages := 8, importedPages := [(1, fxRec "h1")],
    lastImport := "2025-01-01", sourceFile := "B", version := "1.1", history := [] }

/-- Concrete fixture for C7: a manifest holding pages 1, 2 and 3. -/
def fxManifest123 : ImportManifest :=
  { bookName := "B", totalPages := 3,
    importedPages := [(1, fxRec "h1"), (2, fxRec "h2"), (3, fxRec "h3")],
    lastImport := "2025-01-01", sourceFile := "B", version := "1.1", history := [] }

/-- Concrete fixture for C7: a fresh archive holding only pages 1 and 2. -/
def fxBook2 : BookResult :=
  { bookName := "B", pages := [fxPage 1 "h1", fxPage 2 "h2"] }

/-- Concrete fixture for C7: page 3's markdown file exists on disk. -/
def fxVaultC7 : Vault := fun p =>
  if p = "Notes/B/Page 003.md" then some "page 3 contents" else none

/-- Concrete fixture for C8: a folder with page files 001 and 003 plus an
unrelated file. -/
def fxChildren : List VaultFile :=
  [{ name := "Page 001.md", content := "first page", size := 100, mtime := 5 },
   { name := "Index.md", content := "index", size := 10, mtime := 7 },
   { name := "Page 003.md", content := "third page", size := 200, mtime := 6 }]

/-- Concrete fixture for C8: a folder listing with no matching page file. -/
def fxChildrenNoPages : List VaultFile :=
  [{ name := "Index.md", content := "index", size := 10, mtime := 7 }]

/-- Concrete fixture for C10: a one-page book whose page carries strokes. -/
def fxBookStroke : BookResult :=
  { bookName := "B", pages := [fxPageStroke 1 "h1"] }

/-- The `isNew || isModified` flag `importPage` passes to the artifact
writers (page-processor.ts lines 469-470, 478), as a function of the
working manifest: true when the page has no record or its recorded hash
differs from the fresh one. -/
def pageShouldUpdate (hadManifest : Bool) (m : ImportManifest) (pageNum : Nat)
    (pd : PageData) : Bool :=
  let recOpt := if hadManifest then lookupRecord m.importedPages pageNum else none
  recOpt.isNone || decide (recOpt.map (fun r => r.imageHash) ≠ some pd.image.hash)

theorem lookupRecord_mem {pages : List (Nat × PageRecord)} {n : Nat} {r : PageRecord}
    (h : lookupRecord pages n = some r) : (n, r) ∈ pages := by
  induction pages with
  | nil => simp [lookupRecord] at h
  | cons e rest ih =>
    by_cases he : e.1 = n
    · simp only [lookupRecord, if_pos he] at h
      injection h with h
      have he2 : e = (n, r) := Prod.ext he h
      exact List.mem_cons.mpr (Or.inl he2.symm)
    · simp only [lookupRecord, if_neg he] at h
      exact List.mem_cons_of_mem _ (ih h)

theorem mapFind_buildExistingMap (vault : Vault) (bookFolder : String)
    (pages : List (Nat × PageRecord)) (n : Nat) :
    mapFind (buildExistingMap vault bookFolder pages) n =
      (lookupRecord pages n).map (fun r => (r, resolveFileHash vault bookFolder n)) := by
  induction pages with
  | nil => rfl
  | cons e rest ih =>
    simp only [buildExistingMap, List.map_cons, mapFind, lookupRecord]
    by_cases he : e.1 = n
    · rw [if_pos he, if_pos he, he]
      rfl
    · rw [if_neg he, if_neg he]
      exact ih

theorem mapFind_filter_ne (map : List (Nat × PageRecord × Option String)) (k n : Nat)
    (h : n ≠ k) :
    mapFind (map.filter (fun e => e.1 != k)) n = mapFind map n := by
  induction map with
  | nil => rfl
  | cons e rest ih =>
    by_cases he : e.1 = k
    · have hb : (e.1 != k) = false := by simp [he]
      have hne : ¬e.1 = n := fun hn => h (by rw [← hn, he])
      simp [List.filter_cons, hb, ih, mapFind, if_neg hne]
    · have hb : (e.1 != k) = true := bne_iff_ne.mpr he
      simp [List.filter_cons, hb, mapFind, ih]

theorem mapFind_none_filter (map : List (Nat × PageRecord × Option String)) (k : Nat)
    (h : mapFind map k = none) :
    map.filter (fun e => e.1 != k) = map := by
  induction map with
  | nil => rfl
  | cons e rest ih =>
    by_cases he : e.1 = k
    · simp [mapFind, he] at h
    · have hb : (e.1 != k) = true := bne_iff_ne.mpr he
      simp only [mapFind, if_neg he] at h
      simp [List.filter_cons, hb, ih h]

theorem classifyPage_pageNum (map : List (Nat × PageRecord × Option String))
    (p : PageData) : (classifyPage map p).pageNum = p.pageNum := by
  cases h : mapFind map p.pageNum with
  | none => simp [classifyPage, h]
  | some rf =>
    obtain ⟨rec, fh⟩ := rf
    simp only [classifyPage, h]
    split
    · rfl
    · split <;> rfl

theorem classifyPage_type_ne_deleted (map : List (Nat × PageRecord × Option String))
    (p : PageData) : (classifyPage map p).type ≠ ChangeType.deleted := by
  cases h : mapFind map p.pageNum with
  | none => simp [classifyPage, h]
  | some rf =>
    obtain ⟨rec, fh⟩ := rf
    simp only [classifyPage, h]
    split
    · simp
    · split <;> simp

theorem classifyPage_filter_ne (map : List (Nat × PageRecord × Option String))
    (k : Nat) (q : PageData) (h : q.pageNum ≠ k) :
    classifyPage (map.filter (fun e => e.1 != k)) q = classifyPage map q := by
  unfold classifyPage
  rw [mapFind_filter_ne map k q.pageNum h]

theorem analyzeStep_eq (map : List (Nat × PageRecord × Option String))
    (cs : List PageChange) (s : ImportSummary) (p : PageData) :
    analyzeStep (map, cs, s) p =
      (map.filter (fun e => e.1 != p.pageNum), cs ++ [classifyPage map p],
       bucketPush s (classifyPage map p)) := by
  cases h : mapFind map p.pageNum with
  | none =>
    rw [mapFind_none_filter map p.pageNum h]
    simp [analyzeStep, classifyPage, h, bucketPush]
  | some rf =>
    obtain ⟨rec, fh⟩ := rf
    simp only [analyzeStep, classifyPage, h]
    split
    · simp [bucketPush]
    · split <;> simp [bucketPush]

theorem selectPages_cons (map : List (Nat × PageRecord × Option String))
    (p : PageData) (ps : List PageData) (t : ChangeType) :
    selectPages map (p :: ps) t =
      (if (classifyPage map p).type == t then [p.pageNum] else []) ++ selectPages map ps t := by
  simp only [selectPages, List.filter_cons]
  cases hb : (classifyPage map p).type == t <;> simp

theorem selectPages_filter_ne (map : List (Nat × PageRecord × Option String))
    (k : Nat) (ps : List PageData) (t : ChangeType)
    (h : ∀ q ∈ ps, q.pageNum ≠ k) :
    selectPages (map.filter (fun e => e.1 != k)) ps t = selectPages map ps t := by
  unfold selectPages
  rw [List.filter_congr (fun q hq => by rw [classifyPage_filter_ne map k q (h q hq)])]

theorem foldl_analyzeStep_characterize (pages : List PageData) :
    ∀ (map : List (Nat × PageRecord × Option String)) (cs : List PageChange)
      (s : ImportSummary),
      (pages.map (fun p => p.pageNum)).Nodup →
      pages.foldl analyzeStep (map, cs, s) =
        (map.filter (fun e => !((pages.map (fun p => p.pageNum)).contains e.1)),
         cs ++ pages.map (classifyPage map),
         { s with
            newPages := s.newPages ++ selectPages map pages ChangeType.new,
            modifiedPages := s.modifiedPages ++ selectPages map pages ChangeType.modified,
            unchangedPages := s.unchangedPages ++ selectPages map pages ChangeType.unchanged }) := by
  induction pages with
  | nil =>
    intro map cs s _
    simp [selectPages]
  | cons p ps ih =>
    intro map cs s h
    simp only [List.map_cons, List.nodup_cons] at h
    obtain ⟨hp, hps⟩ := h
    have hqs : ∀ q ∈ ps, q.pageNum ≠ p.pageNum := by
      intro q hq hqe
      exact hp (hqe ▸ List.mem_map_of_mem (fun x => x.pageNum) hq)
    rw [List.foldl_cons, analyzeStep_eq, ih _ _ _ hps]
    refine Prod.ext ?_ (Prod.ext ?_ ?_)
    · show (map.filter (fun e => e.1 != p.pageNum)).filter
        (fun e => !((ps.map (fun q => q.pageNum)).contains e.1)) = _
      rw [List.filter_filter]
      refine List.filter_congr ?_
      intro e _
      simp only [List.map_cons, List.contains_cons, Bool.not_or, bne]
      exact Bool.and_comm _ _
    · show (cs ++ [classifyPage map p]) ++ ps.map (classifyPage (map.filter (fun e => e.1 != p.pageNum))) = _
      rw [List.map_congr_left (fun q hq => classifyPage_filter_ne map p.pageNum q (hqs q hq))]
      simp [List.append_assoc]
    · show ({ bucketPush s (classifyPage map p) with
            newPages := (bucketPush s (classifyPage map p)).newPages ++
              selectPages (map.filter (fun e => e.1 != p.pageNum)) ps ChangeType.new,
            modifiedPages := (bucketPush s (classifyPage map p)).modifiedPages ++
              selectPages (map.filter (fun e => e.1 != p.pageNum)) ps ChangeType.modified,
            unchangedPages := (bucketPush s (classifyPage map p)).unchangedPages ++
              selectPages (map.filter (fun e => e.1 != p.pageNum)) ps ChangeType.unchanged } : ImportSummary) = _
      rw [selectPages_filter_ne map p.pageNum ps ChangeType.new hqs,
          selectPages_filter_ne map p.pageNum ps ChangeType.modified hqs,
          selectPages_filter_ne map p.pageNum ps ChangeType.unchanged hqs]
      rw [selectPages_cons map p ps ChangeType.new,
          selectPages_cons map p ps ChangeType.modified,
          selectPages_cons map p ps ChangeType.unchanged]
      cases hct : (classifyPage map p).type with
      | new =>
        have h1 : (ChangeType.new == ChangeType.new) = true := rfl
        have h2 : (ChangeType.new == ChangeType.modified) = false := rfl
        have h3 : (ChangeType.new == ChangeType.unchanged) = false := rfl
        simp [bucketPush, hct, classifyPage_pageNum, h1, h2, h3]
      | modified =>
        have h1 : (ChangeType.modified == ChangeType.new) = false := rfl
        have h2 : (ChangeType.modified == ChangeType.modified) = true := rfl
        have h3 : (ChangeType.modified == ChangeType.unchanged) = false := rfl
        simp [bucketPush, hct, classifyPage_pageNum, h1, h2, h3]
      | unchanged =>
        have h1 : (ChangeType.unchanged == ChangeType.new) = false := rfl
        have h2 : (ChangeType.unchanged == ChangeType.modified) = false := rfl
        have h3 : (ChangeType.unchanged == ChangeType.unchanged) = true := rfl
        simp [bucketPush, hct, classifyPage_pageNum, h1, h2, h3]
      | deleted => exact absurd hct (classifyPage_type_ne_deleted map p)

theorem foldl_deletedStep_characterize (l : List (Nat × PageRecord × Option String)) :
    ∀ (cs : List PageChange) (s : ImportSummary),
      l.foldl deletedStep (cs, s) =
        (cs ++ l.map deletedChangeOf,
         { s with deletedPages := s.deletedPages ++ l.map (fun e => e.1) }) := by
  induction l with
  | nil => intro cs s; simp
  | cons e rest ih =>
    intro cs s
    rw [List.foldl_cons]
    show rest.foldl deletedStep (deletedStep (cs, s) e) = _
    simp only [deletedStep]
    rw [ih]
    simp [deletedChangeOf]

theorem analyzeChanges_some_characterize (vault : Vault) (book : BookResult)
    (m : ImportManifest) (settings : ViwoodsSettings)
    (h : (book.pages.map (fun p => p.pageNum)).Nodup) :
    analyzeChanges vault book (some m) settings =
      ((book.pages.map (classifyPage
          (buildExistingMap vault (settings.notesFolder ++ "/" ++ book.bookName) m.importedPages))) ++
        ((buildExistingMap vault (settings.notesFolder ++ "/" ++ book.bookName) m.importedPages).filter
          (fun e => !((book.pages.map (fun p => p.pageNum)).contains e.1))).map deletedChangeOf,
       { totalPages := book.pages.length,
         newPages := selectPages
           (buildExistingMap vault (settings.notesFolder ++ "/" ++ book.bookName) m.importedPages)
           book.pages ChangeType.new,
         modifiedPages := selectPages
           (buildExistingMap vault (settings.notesFolder ++ "/" ++ book.bookName) m.importedPages)
           book.pages ChangeType.modified,
         unchangedPages := selectPages
           (buildExistingMap vault (settings.notesFolder ++ "/" ++ book.bookName) m.importedPages)
           book.pages ChangeType.unchanged,
         deletedPages := ((buildExistingMap vault (settings.notesFolder ++ "/" ++ book.bookName) m.importedPages).filter
           (fun e => !((book.pages.map (fun p => p.pageNum)).contains e.1))).map (fun e => e.1),
         errors := [] }) := by
  simp only [analyzeChanges]
  rw [foldl_analyzeStep_characterize _ _ _ _ h]
  rw [foldl_deletedStep_characterize]
  simp

/-- The authoritative existing hash for a page, as the spec's two-source
resolution policy describes it: the on-disk frontmatter hash when the page
file exists and the field parses, otherwise the manifest record's hash. -/
def authoritativeHash (vault : Vault) (bookFolder : String) (pageNum : Nat)
    (rec : PageRecord) : String :=
  match resolveFileHash vault bookFolder pageNum with
  | some h => h
  | none => rec.imageHash

theorem parseHashAfterColon_ne_empty (cs : List Char) (h : String)
    (hp : parseHashAfterColon cs = some h) : h ≠ "" := by
  simp only [parseHashAfterColon] at hp
  split at hp
  · exact absurd hp (by simp)
  · next hne =>
      injection hp with hp
      intro hcon
      rw [← hp] at hcon
      have hdata := congrArg String.data hcon
      simp only [String.data] at hdata
      rw [hdata] at hne
      simp at hne

theorem findHashField_ne_empty (cs : List Char) (h : String)
    (hf : findHashField cs = some h) : h ≠ "" := by
  induction cs with
  | nil => simp [findHashField] at hf
  | cons c rest ih =>
    simp only [findHashField] at hf
    split at hf
    · next heq =>
        injection hf with hf
        subst hf
        split at heq
        · exact parseHashAfterColon_ne_empty _ _ heq
        · exact absurd heq (by simp)
    · exact ih hf

theorem resolveFileHash_ne_empty (vault : Vault) (bookFolder : String)
    (pageNum : Nat) (h : String)
    (hr : resolveFileHash vault bookFolder pageNum = some h) : h ≠ "" := by
  simp only [resolveFileHash] at hr
  split at hr
  · exact absurd hr (by simp)
  · split at hr
    · exact absurd hr (by simp)
    · exact findHashField_ne_empty _ _ hr

theorem jsOrHash_resolve (vault : Vault) (bookFolder : String) (pageNum : Nat)
    (rec : PageRecord) :
    jsOrHash (resolveFileHash vault bookFolder pageNum) rec.imageHash =
      authoritativeHash vault bookFolder pageNum rec := by
  unfold jsOrHash authoritativeHash
  cases hr : resolveFileHash vault bookFolder pageNum with
  | none => rfl
  | some s =>
    have := resolveFileHash_ne_empty vault bookFolder pageNum s hr
    simp [this]

theorem classifyPage_found (vault : Vault) (bookFolder : String)
    (pages : List (Nat × PageRecord)) (p : PageData) (rec : PageRecord)
    (hrec : lookupRecord pages p.pageNum = some rec) :
    classifyPage (buildExistingMap vault bookFolder pages) p =
      (if strStartsWith (authoritativeHash vault bookFolder p.pageNum rec) "recovered-" ||
          strStartsWith (authoritativeHash vault bookFolder p.pageNum rec) "RESET-" then
        { pageNum := p.pageNum, type := ChangeType.modified,
          oldHash := some (authoritativeHash vault bookFolder p.pageNum rec),
          newHash := some p.image.hash,
          hasAudioChange := some (p.audio.isSome != rec.hasAudio.getD false) }
       else if ¬(authoritativeHash vault bookFolder p.pageNum rec = p.image.hash) then
        { pageNum := p.pageNum, type := ChangeType.modified,
          oldHash := some (authoritativeHash vault bookFolder p.pageNum rec),
          newHash := some p.image.hash,
          hasAudioChange := some (p.audio.isSome != rec.hasAudio.getD false) }
       else
        { pageNum := p.pageNum, type := ChangeType.unchanged,
          oldHash := some (authoritativeHash vault bookFolder p.pageNum rec),
          newHash := some p.image.hash, hasAudioChange := none }) := by
  have hfind : mapFind (buildExistingMap vault bookFolder pages) p.pageNum =
      some (rec, resolveFileHash vault bookFolder p.pageNum) := by
    rw [mapFind_buildExistingMap, hrec]
    rfl
  simp only [classifyPage, hfind, jsOrHash_resolve]

theorem analyzeChanges_change_unique (vault : Vault) (book : BookResult)
    (m : ImportManifest) (settings : ViwoodsSettings) (p : PageData)
    (hnd : (book.pages.map (fun q => q.pageNum)).Nodup)
    (hmem : p ∈ book.pages) :
    ∀ c ∈ (analyzeChanges vault book (some m) settings).1, c.pageNum = p.pageNum →
      c = classifyPage
        (buildExistingMap vault (settings.notesFolder ++ "/" ++ book.bookName) m.importedPages) p := by
  intro c hc hpn
  rw [analyzeChanges_some_characterize vault book m settings hnd] at hc
  rcases List.mem_append.mp hc with hc1 | hc2
  · obtain ⟨q, hq, hcq⟩ := List.mem_map.mp hc1
    have hqp : q.pageNum = p.pageNum := by
      rw [← hcq] at hpn
      rwa [classifyPage_pageNum] at hpn
    have : q = p := List.inj_on_of_nodup_map hnd hq hmem hqp
    rw [← hcq, this]
  · exfalso
    obtain ⟨e, he, hce⟩ := List.mem_map.mp hc2
    have hsurv := (List.mem_filter.mp he).2
    have hepn : e.1 = p.pageNum := by
      rw [← hce] at hpn
      exact hpn
    have hin : ((book.pages.map (fun q => q.pageNum)).contains e.1) = true := by
      rw [hepn]
      exact List.elem_iff.mpr (List.mem_map_of_mem _ hmem)
    rw [hin] at hsurv
    simp at hsurv

theorem analyzeChanges_change_exists (vault : Vault) (book : BookResult)
    (m : ImportManifest) (settings : ViwoodsSettings) (p : PageData)
    (hnd : (book.pages.map (fun q => q.pageNum)).Nodup)
    (hmem : p ∈ book.pages) :
    classifyPage
      (buildExistingMap vault (settings.notesFolder ++ "/" ++ book.bookName) m.importedPages) p ∈
      (analyzeChanges vault book (some m) settings).1 := by
  rw [analyzeChanges_some_characterize vault book m settings hnd]
  exact List.mem_append.mpr (Or.inl (List.mem_map_of_mem _ hmem))

/-- C5: for every `BookResult` with N pages, `analyzeChanges` with no
existing manifest returns exactly N changes, all of type `new`, with
`summary.newPages` of length N, and its result is independent of the vault
and settings — it reads no file and compares no hash. -/
theorem C5_no_manifest_all_new (vault vault' : Vault) (book : BookResult)
    (settings settings' : ViwoodsSettings) :
    (analyzeChanges vault book none settings).1.length = book.pages.length ∧
    (∀ c ∈ (analyzeChanges vault book none settings).1, c.type = ChangeType.new) ∧
    (analyzeChanges vault book none settings).2.newPages.length = book.pages.length ∧
    analyzeChanges vault book none settings = analyzeChanges vault' book none settings' := by
  refine ⟨?_, ?_, ?_, rfl⟩
  · simp [analyzeChanges]
  · intro c hc
    simp only [analyzeChanges, List.mem_map] at hc
    obtain ⟨p, _, hp⟩ := hc
    rw [← hp]
  · simp [analyzeChanges]

/-- Closed witness for C5 at a concrete one-page book. -/
theorem C5_no_manifest_all_new_witness :
    (analyzeChanges emptyVault (fxBook1 "h1") none fxSettings).1.length = 1 ∧
    ({ pageNum := 1, type := ChangeType.new, oldHash := none, newHash := some "h1",
       hasAudioChange := none } : PageChange).type = ChangeType.new :=
  ⟨(C5_no_manifest_all_new emptyVault emptyVault (fxBook1 "h1") fxSettings fxSettings).1,
   (C5_no_manifest_all_new emptyVault emptyVault (fxBook1 "h1") fxSettings fxSettings).2.1
     _ (by decide)⟩

/-- C3: during `analyzeChanges`, for every page present in both the fresh
book and the manifest, the hash the comparison uses (the reported
`oldHash`) is the one parsed from the on-disk page file's frontmatter
whenever that parses, and only otherwise the manifest record's stored
`imageHash`: exactly `authoritativeHash`, whose two cases the last two
conjuncts spell out. -/
theorem C3_frontmatter_precedence (vault : Vault) (book : BookResult)
    (m : ImportManifest) (settings : ViwoodsSettings) (p : PageData) (rec : PageRecord)
    (hnd : (book.pages.map (fun q => q.pageNum)).Nodup)
    (hmem : p ∈ book.pages)
    (hrec : lookupRecord m.importedPages p.pageNum = some rec) :
    (classifyPage
        (buildExistingMap vault (settings.notesFolder ++ "/" ++ book.bookName) m.importedPages) p ∈
      (analyzeChanges vault book (some m) settings).1) ∧
    (∀ c ∈ (analyzeChanges vault book (some m) settings).1, c.pageNum = p.pageNum →
      c.oldHash = some (authoritativeHash vault
        (settings.notesFolder ++ "/" ++ book.bookName) p.pageNum rec)) ∧
    (∀ h, resolveFileHash vault (settings.notesFolder ++ "/" ++ book.bookName) p.pageNum = some h →
      authoritativeHash vault (settings.notesFolder ++ "/" ++ book.bookName) p.pageNum rec = h) ∧
    (resolveFileHash vault (settings.notesFolder ++ "/" ++ book.bookName) p.pageNum = none →
      authoritativeHash vault (settings.notesFolder ++ "/" ++ book.bookName) p.pageNum rec
        = rec.imageHash) := by
  refine ⟨analyzeChanges_change_exists vault book m settings p hnd hmem, ?_, ?_, ?_⟩
  · intro c hc hpn
    rw [analyzeChanges_change_unique vault book m settings p hnd hmem c hc hpn]
    rw [classifyPage_found vault _ m.importedPages p rec hrec]
    split
    · rfl
    · split <;> rfl
  · intro h hr
    simp [authoritativeHash, hr]
  · intro hr
    simp [authoritativeHash, hr]

/-- Closed witness for C3: with frontmatter hash `abc123` on disk and a
different hash in the manifest record, the reported old hash is `abc123`. -/
theorem C3_frontmatter_precedence_witness :
    ({ pageNum := 1, type := ChangeType.modified, oldHash := some "abc123",
       newHash := some "zzz", hasAudioChange := some false } : PageChange) ∈
      (analyzeChanges fxVaultC2 (fxBook1 "zzz") (some (fxManifest1 "mhash")) fxSettings).1 ∧
    ({ pageNum := 1, type := ChangeType.modified, oldHash := some "abc123",
       newHash := some "zzz", hasAudioChange := some false } : PageChange).oldHash =
      some (authoritativeHash fxVaultC2 ("Notes" ++ "/" ++ "B") 1 (fxRec "mhash")) :=
  ⟨by decide,
   (C3_frontmatter_precedence fxVaultC2 (fxBook1 "zzz") (fxManifest1 "mhash") fxSettings
      (fxPage 1 "zzz") (fxRec "mhash") (by decide) (by decide) (by decide)).2.1
     _ (by decide) (by decide)⟩

/-- C2 counterexample: the manifest record's `imageHash` carries the
`RESET-` sentinel prefix, but the on-disk page file's frontmatter supplies
the hash `abc123`, which equals the freshly computed hash — the page is
classified `unchanged`, not `modified`.  Sentinel detection applies to the
resolved (frontmatter-first) hash, not to the record's `imageHash`. -/
theorem C2_counterexample :
    strStartsWith (fxRec "RESET-1700000000000").imageHash "RESET-" = true ∧
    lookupRecord (fxManifest1 "RESET-1700000000000").importedPages 1 =
      some (fxRec "RESET-1700000000000") ∧
    (analyzeChanges fxVaultC2 (fxBook1 "abc123")
      (some (fxManifest1 "RESET-1700000000000")) fxSettings).2.modifiedPages = [] ∧
    (analyzeChanges fxVaultC2 (fxBook1 "abc123")
      (some (fxManifest1 "RESET-1700000000000")) fxSettings).2.unchangedPages = [1] := by
  refine ⟨by decide, by decide, by decide, by decide⟩

/-- C2 (amended): for every page present in both the fresh book and the
manifest, if the RESOLVED existing hash — the on-disk frontmatter hash when
it parses, otherwise the manifest record's `imageHash` — carries the
`recovered-` or `RESET-` sentinel prefix, `analyzeChanges` classifies that
page as `modified` unconditionally, whatever the freshly computed hash is
(in particular when it equals the sentinel's numeric suffix): sentinel
detection is prefix-based, not value-based. -/
theorem C2_amended_sentinel_override (vault : Vault) (book : BookResult)
    (m : ImportManifest) (settings : ViwoodsSettings) (p : PageData) (rec : PageRecord)
    (hnd : (book.pages.map (fun q => q.pageNum)).Nodup)
    (hmem : p ∈ book.pages)
    (hrec : lookupRecord m.importedPages p.pageNum = some rec)
    (hsent : strStartsWith
        (authoritativeHash vault (settings.notesFolder ++ "/" ++ book.bookName) p.pageNum rec)
        "recovered-" = true ∨
      strStartsWith
        (authoritativeHash vault (settings.notesFolder ++ "/" ++ book.bookName) p.pageNum rec)
        "RESET-" = true) :
    (∀ c ∈ (analyzeChanges vault book (some m) settings).1, c.pageNum = p.pageNum →
      c.type = ChangeType.modified) ∧
    p.pageNum ∈ (analyzeChanges vault book (some m) settings).2.modifiedPages := by
  have htype : (classifyPage
      (buildExistingMap vault (settings.notesFolder ++ "/" ++ book.bookName) m.importedPages)
        p).type = ChangeType.modified := by
    rw [classifyPage_found vault _ m.importedPages p rec hrec]
    rcases hsent with hs | hs
    · rw [hs]
      simp
    · rw [hs]
      simp
  constructor
  · intro c hc hpn
    rw [analyzeChanges_change_unique vault book m settings p hnd hmem c hc hpn]
    exact htype
  · rw [analyzeChanges_some_characterize vault book m settings hnd]
    show p.pageNum ∈ selectPages _ book.pages ChangeType.modified
    refine List.mem_map.mpr ⟨p, List.mem_filter.mpr ⟨hmem, ?_⟩, rfl⟩
    rw [htype]
    rfl

/-- Closed witness for the amended C2: record hash `recovered-12345-999`,
no page file on disk, fresh hash `12345` (the naive numeric suffix) — the
page is still classified `modified`. -/
theorem C2_amended_sentinel_override_witness :
    strStartsWith (authoritativeHash emptyVault ("Notes" ++ "/" ++ "B") 1
      (fxRec "recovered-12345-999")) "recovered-" = true ∧
    1 ∈ (analyzeChanges emptyVault (fxBook1 "12345")
      (some (fxManifest1 "recovered-12345-999")) fxSettings).2.modifiedPages :=
  ⟨by decide,
   (C2_amended_sentinel_override emptyVault (fxBook1 "12345")
      (fxManifest1 "recovered-12345-999") fxSettings (fxPage 1 "12345")
      (fxRec "recovered-12345-999") (by decide) (by decide) (by decide)
      (Or.inl (by decide))).2⟩

theorem setRecord_lookup_self (l : List (Nat × PageRecord)) (n : Nat) (r : PageRecord) :
    lookupRecord (setRecord l n r) n = some r := by
  induction l with
  | nil => simp [setRecord, lookupRecord]
  | cons e rest ih =>
    by_cases he : e.1 = n
    · simp [setRecord, he, lookupRecord]
    · simp [setRecord, he, lookupRecord, ih]

theorem setRecord_lookup_ne (l : List (Nat × PageRecord)) (n k : Nat) (r : PageRecord)
    (h : k ≠ n) :
    lookupRecord (setRecord l n r) k = lookupRecord l k := by
  have hnk : ¬n = k := fun hn => h hn.symm
  induction l with
  | nil => simp only [setRecord, lookupRecord, if_neg hnk]
  | cons e rest ih =>
    by_cases he : e.1 = n
    · have hek : ¬e.1 = k := by rw [he]; exact hnk
      simp only [setRecord, if_pos he, lookupRecord, if_neg hnk, if_neg hek]
    · simp only [setRecord, if_neg he, lookupRecord]
      by_cases hek : e.1 = k
      · simp [hek]
      · simp [hek, ih]

theorem vaultWrite_frame (failPaths : FailOracle) (v : Vault) (path content pa : String)
    (h : pa ≠ path) : (vaultWrite failPaths v path content).1 pa = v pa := by
  unfold vaultWrite
  cases failPaths path with
  | some e => rfl
  | none => simp [vaultSet, h]

theorem vaultErase_frame (v : Vault) (path pa : String) (h : pa ≠ path) :
    vaultErase v path pa = v pa := by
  simp [vaultErase, h]

theorem saveStrokeData_frame (failPaths : FailOracle) (v : Vault) (env : Env)
    (stroke : List (List Int)) (bookName : String) (pageNum : Nat)
    (strokesFolder : String) (shouldUpdate : Bool) (pa : String)
    (h : pa ≠ strokeFilePath strokesFolder bookName pageNum) :
    (saveStrokeData failPaths v env stroke bookName pageNum strokesFolder shouldUpdate).1 pa = v pa := by
  simp only [saveStrokeData]
  split
  · split
    · exact vaultWrite_frame _ _ _ _ _ h
    · rfl
  · exact vaultWrite_frame _ _ _ _ _ h

theorem savePageImage_frame (failPaths : FailOracle) (v : Vault) (env : Env)
    (settings : ViwoodsSettings) (page : PageData) (bookName : String) (pageNum : Nat)
    (imagesFolder : String) (isNew isModified : Bool) (existingRec : Option PageRecord)
    (pa : String) (h : pa ≠ imageFilePath imagesFolder bookName pageNum) :
    savePageImage failPaths v env settings page bookName pageNum imagesFolder
      isNew isModified existingRec pa = v pa := by
  simp only [savePageImage, vaultWrite]
  cases hv : v (imageFilePath imagesFolder bookName pageNum) <;>
    cases hw : failPaths (imageFilePath imagesFolder bookName pageNum) <;>
      simp only [hv, hw] <;> (try split) <;>
        first
        | rfl
        | simp [vaultSet, vaultErase, h]

theorem savePageSvg_frame (failPaths : FailOracle) (v : Vault) (env : Env)
    (stroke : List (List Int)) (bookName : String) (pageNum : Nat)
    (imagesFolder : String) (shouldUpdate : Bool) (pa : String)
    (h : pa ≠ svgFilePath imagesFolder bookName pageNum) :
    (savePageSvg failPaths v env stroke bookName pageNum imagesFolder shouldUpdate).1 pa = v pa := by
  simp only [savePageSvg]
  split
  · split
    · exact vaultWrite_frame _ _ _ _ _ h
    · rfl
  · exact vaultWrite_frame _ _ _ _ _ h

theorem savePageAudio_frame (failPaths : FailOracle) (v : Vault) (audio : PageAudio)
    (audioFolder : String) (shouldUpdate : Bool) (pa : String)
    (h : pa ≠ audioFolder ++ "/" ++ audio.name) :
    (savePageAudio failPaths v audio audioFolder shouldUpdate).1 pa = v pa := by
  simp only [savePageAudio]
  split
  · split
    · rw [vaultWrite_frame _ _ _ _ _ h, vaultErase_frame _ _ _ h]
    · rfl
  · exact vaultWrite_frame _ _ _ _ _ h

theorem importPage_not_found (env : Env) (failPaths : FailOracle)
    (settings : ViwoodsSettings) (book : BookResult) (pageNum : Nat)
    (bookFolder imagesFolder audioFolder strokesFolder : String) (hadManifest : Bool)
    (st : Vault × ImportManifest × ImportSummary)
    (hfind : book.pages.find? (fun p => p.pageNum == pageNum) = none) :
    importPage env failPaths settings book pageNum bookFolder imagesFolder
      audioFolder strokesFolder hadManifest st = st := by
  obtain ⟨v, m, s⟩ := st
  simp [importPage, hfind]

theorem importPage_manifest_totalPages (env : Env) (failPaths : FailOracle)
    (settings : ViwoodsSettings) (book : BookResult) (pageNum : Nat)
    (bookFolder imagesFolder audioFolder strokesFolder : String) (hadManifest : Bool)
    (st : Vault × ImportManifest × ImportSummary) :
    (importPage env failPaths settings book pageNum bookFolder imagesFolder
      audioFolder strokesFolder hadManifest st).2.1.totalPages = st.2.1.totalPages := by
  obtain ⟨v, m, s⟩ := st
  simp only [importPage]
  cases hfind : book.pages.find? (fun p => p.pageNum == pageNum) with
  | none => rfl
  | some page =>
    simp only []
    repeat' split
    all_goals rfl

theorem vaultWrite_ok (failPaths : FailOracle) (v : Vault) (path content : String)
    (h : failPaths path = none) :
    vaultWrite failPaths v path content = (vaultSet v path content, none) := by
  simp [vaultWrite, h]

theorem vaultWrite_fail (failPaths : FailOracle) (v : Vault) (path content err : String)
    (h : failPaths path = some err) :
    vaultWrite failPaths v path content = (v, some err) := by
  simp [vaultWrite, h]

theorem saveStrokeData_ok (failPaths : FailOracle) (v : Vault) (env : Env)
    (stroke : List (List Int)) (bookName : String) (pageNum : Nat)
    (strokesFolder : String) (shouldUpdate : Bool)
    (h : failPaths (strokeFilePath strokesFolder bookName pageNum) = none) :
    (saveStrokeData failPaths v env stroke bookName pageNum strokesFolder shouldUpdate).2 = none := by
  simp only [saveStrokeData]
  split
  · split
    · rw [vaultWrite_ok _ _ _ _ h]
    · rfl
  · rw [vaultWrite_ok _ _ _ _ h]

theorem savePageSvg_ok (failPaths : FailOracle) (v : Vault) (env : Env)
    (stroke : List (List Int)) (bookName : String) (pageNum : Nat)
    (imagesFolder : String) (shouldUpdate : Bool)
    (h : failPaths (svgFilePath imagesFolder bookName pageNum) = none) :
    (savePageSvg failPaths v env stroke bookName pageNum imagesFolder shouldUpdate).2 = none := by
  simp only [savePageSvg]
  split
  · split
    · rw [vaultWrite_ok _ _ _ _ h]
    · rfl
  · rw [vaultWrite_ok _ _ _ _ h]

theorem savePageAudio_ok (failPaths : FailOracle) (v : Vault) (audio : PageAudio)
    (audioFolder : String) (shouldUpdate : Bool)
    (h : failPaths (audioFolder ++ "/" ++ audio.name) = none) :
    (savePageAudio failPaths v audio audioFolder shouldUpdate).2 = none := by
  simp only [savePageAudio]
  split
  · split
    · rw [vaultWrite_ok _ _ _ _ h]
    · rfl
  · rw [vaultWrite_ok _ _ _ _ h]

theorem importPageBody_frame (env : Env) (failPaths : FailOracle)
    (settings : ViwoodsSettings) (book : BookResult) (page : PageData) (pageNum : Nat)
    (bookFolder imagesFolder audioFolder strokesFolder : String)
    (manifest : ImportManifest) (isNew isModified : Bool) (recOpt : Option PageRecord)
    (v : Vault) (pa : String)
    (h1 : pa ≠ strokeFilePath strokesFolder book.bookName pageNum)
    (h2 : pa ≠ pageFilePath bookFolder pageNum)
    (h3 : pa ≠ imageFilePath imagesFolder book.bookName pageNum)
    (h4 : pa ≠ svgFilePath imagesFolder book.bookName pageNum)
    (h5 : ∀ a, page.audio = some a → pa ≠ audioFolder ++ "/" ++ a.name) :
    (importPageBody env failPaths settings book page pageNum bookFolder imagesFolder
      audioFolder strokesFolder manifest isNew isModified recOpt v).1 pa = v pa := by
  have hstroke : ∀ (w : Vault) (su : Bool),
      ((match page.stroke with
        | some stroke =>
          saveStrokeData failPaths w env stroke book.bookName pageNum strokesFolder su
        | none => (w, none)) : Vault × Option String).1 pa = w pa := by
    intro w su
    cases page.stroke with
    | none => rfl
    | some stroke => exact saveStrokeData_frame _ _ _ _ _ _ _ _ _ h1
  have himg : ∀ (w : Vault),
      (if settings.outputFormat = OutputFormat.png || settings.outputFormat = OutputFormat.both then
        savePageImage failPaths w env settings page book.bookName pageNum imagesFolder
          isNew isModified recOpt
       else w) pa = w pa := by
    intro w
    cases hc : (decide (settings.outputFormat = OutputFormat.png) ||
        decide (settings.outputFormat = OutputFormat.both)) with
    | false => simp [hc]
    | true =>
      simp only [hc, if_true]
      exact savePageImage_frame _ _ _ _ _ _ _ _ _ _ _ _ h3
  have hsvg : ∀ (w : Vault) (su : Bool),
      ((match page.stroke with
        | some stroke =>
          if settings.outputFormat = OutputFormat.svg || settings.outputFormat = OutputFormat.both then
            savePageSvg failPaths w env stroke book.bookName pageNum imagesFolder su
          else (w, none)
        | none => (w, none)) : Vault × Option String).1 pa = w pa := by
    intro w su
    cases page.stroke with
    | none => rfl
    | some stroke =>
      cases hc : (decide (settings.outputFormat = OutputFormat.svg) ||
          decide (settings.outputFormat = OutputFormat.both)) with
      | false => simp [hc]
      | true =>
        simp only [hc, if_true]
        exact savePageSvg_frame _ _ _ _ _ _ _ _ _ h4
  have haud : ∀ (w : Vault) (su : Bool),
      ((match page.audio with
        | some audio => savePageAudio failPaths w audio audioFolder su
        | none => (w, none)) : Vault × Option String).1 pa = w pa := by
    intro w su
    cases ha : page.audio with
    | none => rfl
    | some audio => exact savePageAudio_frame _ _ _ _ _ _ (h5 audio ha)
  simp only [importPageBody]
  split
  · exact hstroke v _
  · split
    · exact (vaultWrite_frame _ _ _ _ _ h2).trans (hstroke v _)
    · split
      · exact (hsvg _ _).trans ((himg _).trans ((vaultWrite_frame _ _ _ _ _ h2).trans (hstroke v _)))
      · exact (haud _ _).trans ((hsvg _ _).trans ((himg _).trans
          ((vaultWrite_frame _ _ _ _ _ h2).trans (hstroke v _))))

theorem importPageBody_no_fail (env : Env) (failPaths : FailOracle)
    (settings : ViwoodsSettings) (book : BookResult) (page : PageData) (pageNum : Nat)
    (bookFolder imagesFolder audioFolder strokesFolder : String)
    (manifest : ImportManifest) (isNew isModified : Bool) (recOpt : Option PageRecord)
    (v : Vault)
    (hstroke : failPaths (strokeFilePath strokesFolder book.bookName pageNum) = none)
    (hmd : failPaths (pageFilePath bookFolder pageNum) = none)
    (hsvg : failPaths (svgFilePath imagesFolder book.bookName pageNum) = none)
    (haud : ∀ a, page.audio = some a → failPaths (audioFolder ++ "/" ++ a.name) = none) :
    (importPageBody env failPaths settings book page pageNum bookFolder imagesFolder
      audioFolder strokesFolder manifest isNew isModified recOpt v).2 = none := by
  have hstrokeStep : ∀ (w : Vault) (su : Bool),
      ((match page.stroke with
        | some stroke =>
          saveStrokeData failPaths w env stroke book.bookName pageNum strokesFolder su
        | none => (w, none)) : Vault × Option String).2 = none := by
    intro w su
    cases page.stroke with
    | none => rfl
    | some stroke => exact saveStrokeData_ok _ _ _ _ _ _ _ _ hstroke
  have hsvgStep : ∀ (w : Vault) (su : Bool),
      ((match page.stroke with
        | some stroke =>
          if settings.outputFormat = OutputFormat.svg || settings.outputFormat = OutputFormat.both then
            savePageSvg failPaths w env stroke book.bookName pageNum imagesFolder su
          else (w, none)
        | none => (w, none)) : Vault × Option String).2 = none := by
    intro w su
    cases page.stroke with
    | none => rfl
    | some stroke =>
      cases hc : (decide (settings.outputFormat = OutputFormat.svg) ||
          decide (settings.outputFormat = OutputFormat.both)) with
      | false => simp [hc]
      | true =>
        simp only [hc, if_true]
        exact savePageSvg_ok _ _ _ _ _ _ _ _ hsvg
  have haudStep : ∀ (w : Vault) (su : Bool),
      ((match page.audio with
        | some audio => savePageAudio failPaths w audio audioFolder su
        | none => (w, none)) : Vault × Option String).2 = none := by
    intro w su
    cases ha : page.audio with
    | none => rfl
    | some audio => exact savePageAudio_ok _ _ _ _ _ (haud audio ha)
  simp only [importPageBody]
  rw [hstrokeStep]
  simp only [vaultWrite_ok _ _ _ _ hmd]
  rw [hsvgStep]
  exact haudStep _ _

theorem importPageBody_fails (env : Env) (failPaths : FailOracle)
    (settings : ViwoodsSettings) (book : BookResult) (page : PageData) (pageNum : Nat)
    (bookFolder imagesFolder audioFolder strokesFolder : String)
    (manifest : ImportManifest) (isNew isModified : Bool) (recOpt : Option PageRecord)
    (v : Vault) (err : String)
    (hmd : failPaths (pageFilePath bookFolder pageNum) = some err) :
    ∃ msg, (importPageBody env failPaths settings book page pageNum bookFolder imagesFolder
      audioFolder strokesFolder manifest isNew isModified recOpt v).2 = some msg := by
  simp only [importPageBody]
  split
  · next e _ => exact ⟨e, rfl⟩
  · simp only [vaultWrite_fail _ _ _ _ _ hmd]
    exact ⟨err, rfl⟩

theorem importPageBody_md_fail (env : Env) (failPaths : FailOracle)
    (settings : ViwoodsSettings) (book : BookResult) (page : PageData) (pageNum : Nat)
    (bookFolder imagesFolder audioFolder strokesFolder : String)
    (manifest : ImportManifest) (isNew isModified : Bool) (recOpt : Option PageRecord)
    (v : Vault) (err : String)
    (hstroke : failPaths (strokeFilePath strokesFolder book.bookName pageNum) = none)
    (hmd : failPaths (pageFilePath bookFolder pageNum) = some err) :
    (importPageBody env failPaths settings book page pageNum bookFolder imagesFolder
      audioFolder strokesFolder manifest isNew isModified recOpt v).2 = some err := by
  have hstrokeStep : ∀ (w : Vault) (su : Bool),
      ((match page.stroke with
        | some stroke =>
          saveStrokeData failPaths w env stroke book.bookName pageNum strokesFolder su
        | none => (w, none)) : Vault × Option String).2 = none := by
    intro w su
    cases page.stroke with
    | none => rfl
    | some stroke => exact saveStrokeData_ok _ _ _ _ _ _ _ _ hstroke
  simp only [importPageBody]
  rw [hstrokeStep]
  simp only [vaultWrite_fail _ _ _ _ _ hmd]

theorem importPage_summary_totalPages (env : Env) (failPaths : FailOracle)
    (settings : ViwoodsSettings) (book : BookResult) (pageNum : Nat)
    (bookFolder imagesFolder audioFolder strokesFolder : String) (hadManifest : Bool)
    (st : Vault × ImportManifest × ImportSummary) :
    (importPage env failPaths settings book pageNum bookFolder imagesFolder
      audioFolder strokesFolder hadManifest st).2.2.totalPages = st.2.2.totalPages := by
  obtain ⟨v, m, s⟩ := st
  simp only [importPage]
  cases hfind : book.pages.find? (fun p => p.pageNum == pageNum) with
  | none => rfl
  | some page =>
    simp only []
    repeat' split
    all_goals rfl

theorem importPage_deletedPages (env : Env) (failPaths : FailOracle)
    (settings : ViwoodsSettings) (book : BookResult) (pageNum : Nat)
    (bookFolder imagesFolder audioFolder strokesFolder : String) (hadManifest : Bool)
    (st : Vault × ImportManifest × ImportSummary) :
    (importPage env failPaths settings book pageNum bookFolder imagesFolder
      audioFolder strokesFolder hadManifest st).2.2.deletedPages = st.2.2.deletedPages := by
  obtain ⟨v, m, s⟩ := st
  simp only [importPage]
  cases hfind : book.pages.find? (fun p => p.pageNum == pageNum) with
  | none => rfl
  | some page =>
    simp only []
    repeat' split
    all_goals rfl

theorem importPage_errors_append (env : Env) (failPaths : FailOracle)
    (settings : ViwoodsSettings) (book : BookResult) (pageNum : Nat)
    (bookFolder imagesFolder audioFolder strokesFolder : String) (hadManifest : Bool)
    (st : Vault × ImportManifest × ImportSummary) :
    ∃ t, (importPage env failPaths settings book pageNum bookFolder imagesFolder
      audioFolder strokesFolder hadManifest st).2.2.errors = st.2.2.errors ++ t := by
  obtain ⟨v, m, s⟩ := st
  simp only [importPage]
  cases hfind : book.pages.find? (fun p => p.pageNum == pageNum) with
  | none => exact ⟨[], (List.append_nil _).symm⟩
  | some page =>
    simp only []
    repeat' split
    all_goals first
      | exact ⟨[], (List.append_nil _).symm⟩
      | exact ⟨_, rfl⟩

theorem importPage_buckets_append (env : Env) (failPaths : FailOracle)
    (settings : ViwoodsSettings) (book : BookResult) (pageNum : Nat)
    (bookFolder imagesFolder audioFolder strokesFolder : String) (hadManifest : Bool)
    (st : Vault × ImportManifest × ImportSummary) :
    ∃ a b c,
      (importPage env failPaths settings book pageNum bookFolder imagesFolder
        audioFolder strokesFolder hadManifest st).2.2.newPages = st.2.2.newPages ++ a ∧
      (importPage env failPaths settings book pageNum bookFolder imagesFolder
        audioFolder strokesFolder hadManifest st).2.2.modifiedPages = st.2.2.modifiedPages ++ b ∧
      (importPage env failPaths settings book pageNum bookFolder imagesFolder
        audioFolder strokesFolder hadManifest st).2.2.unchangedPages = st.2.2.unchangedPages ++ c := by
  obtain ⟨v, m, s⟩ := st
  simp only [importPage]
  cases hfind : book.pages.find? (fun p => p.pageNum == pageNum) with
  | none =>
    exact ⟨[], [], [], (List.append_nil _).symm, (List.append_nil _).symm,
      (List.append_nil _).symm⟩
  | some page =>
    simp only []
    repeat' split
    all_goals first
      | exact ⟨[pageNum], [], [], rfl, (List.append_nil _).symm, (List.append_nil _).symm⟩
      | exact ⟨[], [pageNum], [], (List.append_nil _).symm, rfl, (List.append_nil _).symm⟩
      | exact ⟨[], [], [pageNum], (List.append_nil _).symm, (List.append_nil _).symm, rfl⟩

theorem importPage_found_bucket_mem (env : Env) (failPaths : FailOracle)
    (settings : ViwoodsSettings) (book : BookResult) (pageNum : Nat)
    (bookFolder imagesFolder audioFolder strokesFolder : String) (hadManifest : Bool)
    (st : Vault × ImportManifest × ImportSummary) (page : PageData)
    (hfind : book.pages.find? (fun p => p.pageNum == pageNum) = some page) :
    pageNum ∈
      (importPage env failPaths settings book pageNum bookFolder imagesFolder
        audioFolder strokesFolder hadManifest st).2.2.newPages ++
      (importPage env failPaths settings book pageNum bookFolder imagesFolder
        audioFolder strokesFolder hadManifest st).2.2.modifiedPages ++
      (importPage env failPaths settings book pageNum bookFolder imagesFolder
        audioFolder strokesFolder hadManifest st).2.2.unchangedPages := by
  obtain ⟨v, m, s⟩ := st
  simp only [importPage, hfind]
  repeat' split
  all_goals simp [*]

theorem importPage_manifest_lookup_ne (env : Env) (failPaths : FailOracle)
    (settings : ViwoodsSettings) (book : BookResult) (pageNum : Nat)
    (bookFolder imagesFolder audioFolder strokesFolder : String) (hadManifest : Bool)
    (st : Vault × ImportManifest × ImportSummary) (k : Nat) (hk : k ≠ pageNum) :
    lookupRecord (importPage env failPaths settings book pageNum bookFolder imagesFolder
      audioFolder strokesFolder hadManifest st).2.1.importedPages k =
      lookupRecord st.2.1.importedPages k := by
  obtain ⟨v, m, s⟩ := st
  simp only [importPage]
  cases hfind : book.pages.find? (fun p => p.pageNum == pageNum) with
  | none => rfl
  | some page =>
    simp only []
    repeat' split
    all_goals first
      | rfl
      | exact setRecord_lookup_ne _ _ _ _ hk

theorem importPage_vault_frame (env : Env) (failPaths : FailOracle)
    (settings : ViwoodsSettings) (book : BookResult) (pageNum : Nat)
    (bookFolder imagesFolder audioFolder strokesFolder : String) (hadManifest : Bool)
    (st : Vault × ImportManifest × ImportSummary) (pa : String)
    (h : pa ∉ touchedPaths book bookFolder imagesFolder audioFolder strokesFolder pageNum) :
    (importPage env failPaths settings book pageNum bookFolder imagesFolder
      audioFolder strokesFolder hadManifest st).1 pa = st.1 pa := by
  obtain ⟨v, m, s⟩ := st
  simp only [importPage]
  cases hfind : book.pages.find? (fun p => p.pageNum == pageNum) with
  | none => rfl
  | some page =>
    simp only [touchedPaths, hfind] at h
    have h5 : ∀ a, page.audio = some a → pa ≠ audioFolder ++ "/" ++ a.name := by
      intro a ha hcon
      rw [ha] at h
      simp [hcon] at h
    have h1 : pa ≠ strokeFilePath strokesFolder book.bookName pageNum := by
      intro hcon
      cases page.audio <;> simp [hcon] at h
    have h2 : pa ≠ pageFilePath bookFolder pageNum := by
      intro hcon
      cases page.audio <;> simp [hcon] at h
    have h3 : pa ≠ imageFilePath imagesFolder book.bookName pageNum := by
      intro hcon
      cases page.audio <;> simp [hcon] at h
    have h4 : pa ≠ svgFilePath imagesFolder book.bookName pageNum := by
      intro hcon
      cases page.audio <;> simp [hcon] at h
    simp only []
    split
    · exact importPageBody_frame _ _ _ _ _ _ _ _ _ _ _ _ _ _ _ _ h1 h2 h3 h4 h5
    · exact importPageBody_frame _ _ _ _ _ _ _ _ _ _ _ _ _ _ _ _ h1 h2 h3 h4 h5

theorem bucketIf_errors (s : ImportSummary) (P Q : Prop) [Decidable P] [Decidable Q] (n : Nat) :
    (if P then { s with newPages := s.newPages ++ [n] }
     else if Q then { s with modifiedPages := s.modifiedPages ++ [n] }
     else { s with unchangedPages := s.unchangedPages ++ [n] }).errors = s.errors := by
  split
  · rfl
  · split <;> rfl

theorem importPage_success (env : Env) (failPaths : FailOracle)
    (settings : ViwoodsSettings) (book : BookResult) (pageNum : Nat)
    (bookFolder imagesFolder audioFolder strokesFolder : String) (hadManifest : Bool)
    (st : Vault × ImportManifest × ImportSummary) (page : PageData)
    (hfind : book.pages.find? (fun p => p.pageNum == pageNum) = some page)
    (hstroke : failPaths (strokeFilePath strokesFolder book.bookName pageNum) = none)
    (hmd : failPaths (pageFilePath bookFolder pageNum) = none)
    (hsvg : failPaths (svgFilePath imagesFolder book.bookName pageNum) = none)
    (haud : ∀ a, page.audio = some a → failPaths (audioFolder ++ "/" ++ a.name) = none) :
    (importPage env failPaths settings book pageNum bookFolder imagesFolder
      audioFolder strokesFolder hadManifest st).2.2.errors = st.2.2.errors ∧
    (importPage env failPaths settings book pageNum bookFolder imagesFolder
      audioFolder strokesFolder hadManifest st).2.1.importedPages =
      setRecord st.2.1.importedPages pageNum
        (importedRecordFor env settings st.2.1.importedPages page) := by
  obtain ⟨v, m, s⟩ := st
  simp only [importPage, hfind]
  rw [importPageBody_no_fail env failPaths settings book page pageNum bookFolder imagesFolder
    audioFolder strokesFolder m _ _ _ v hstroke hmd hsvg haud]
  constructor
  · show (_ : ImportSummary).errors = _
    rw [bucketIf_errors]
  · rfl

theorem importPage_md_fail (env : Env) (failPaths : FailOracle)
    (settings : ViwoodsSettings) (book : BookResult) (pageNum : Nat)
    (bookFolder imagesFolder audioFolder strokesFolder : String) (hadManifest : Bool)
    (st : Vault × ImportManifest × ImportSummary) (page : PageData) (err : String)
    (hfind : book.pages.find? (fun p => p.pageNum == pageNum) = some page)
    (hstroke : failPaths (strokeFilePath strokesFolder book.bookName pageNum) = none)
    (hmd : failPaths (pageFilePath bookFolder pageNum) = some err) :
    (importPage env failPaths settings book pageNum bookFolder imagesFolder
      audioFolder strokesFolder hadManifest st).2.2.errors =
      st.2.2.errors ++ [{ page := pageNum, error := err }] ∧
    (importPage env failPaths settings book pageNum bookFolder imagesFolder
      audioFolder strokesFolder hadManifest st).2.1 = st.2.1 := by
  obtain ⟨v, m, s⟩ := st
  simp only [importPage, hfind]
  rw [importPageBody_md_fail env failPaths settings book page pageNum bookFolder imagesFolder
    audioFolder strokesFolder m _ _ _ v err hstroke hmd]
  constructor
  · show (_ : ImportSummary).errors ++ [{ page := pageNum, error := err }] = _
    rw [bucketIf_errors]
  · rfl

theorem importPage_any_fail (env : Env) (failPaths : FailOracle)
    (settings : ViwoodsSettings) (book : BookResult) (pageNum : Nat)
    (bookFolder imagesFolder audioFolder strokesFolder : String) (hadManifest : Bool)
    (st : Vault × ImportManifest × ImportSummary) (page : PageData) (err : String)
    (hfind : book.pages.find? (fun p => p.pageNum == pageNum) = some page)
    (hmd : failPaths (pageFilePath bookFolder pageNum) = some err) :
    ∃ msg, (importPage env failPaths settings book pageNum bookFolder imagesFolder
      audioFolder strokesFolder hadManifest st).2.2.errors =
        st.2.2.errors ++ [{ page := pageNum, error := msg }] := by
  obtain ⟨v, m, s⟩ := st
  simp only [importPage, hfind]
  obtain ⟨msg, hmsg⟩ := importPageBody_fails env failPaths settings book page pageNum bookFolder
    imagesFolder audioFolder strokesFolder m
    ((if hadManifest then lookupRecord m.importedPages pageNum else none).isNone)
    (decide ((if hadManifest then lookupRecord m.importedPages pageNum else none).map
      (fun r => r.imageHash) ≠ some page.image.hash))
    (if hadManifest then lookupRecord m.importedPages pageNum else none) v err hmd
  rw [hmsg]
  refine ⟨msg, ?_⟩
  show (_ : ImportSummary).errors ++ [{ page := pageNum, error := msg }] = _
  rw [bucketIf_errors]

theorem importFold_manifest_totalPages (env : Env) (failPaths : FailOracle)
    (settings : ViwoodsSettings) (book : BookResult)
    (bookFolder imagesFolder audioFolder strokesFolder : String) (hadManifest : Bool)
    (rest : List Nat) :
    ∀ st : Vault × ImportManifest × ImportSummary,
      (rest.foldl (fun st pageNum =>
        importPage env failPaths settings book pageNum bookFolder imagesFolder
          audioFolder strokesFolder hadManifest st) st).2.1.totalPages = st.2.1.totalPages := by
  induction rest with
  | nil => intro st; rfl
  | cons q qs ih =>
    intro st
    rw [List.foldl_cons]
    exact (ih _).trans (importPage_manifest_totalPages env failPaths settings book q
      bookFolder imagesFolder audioFolder strokesFolder hadManifest st)

theorem importFold_summary_totalPages (env : Env) (failPaths : FailOracle)
    (settings : ViwoodsSettings) (book : BookResult)
    (bookFolder imagesFolder audioFolder strokesFolder : String) (hadManifest : Bool)
    (rest : List Nat) :
    ∀ st : Vault × ImportManifest × ImportSummary,
      (rest.foldl (fun st pageNum =>
        importPage env failPaths settings book pageNum bookFolder imagesFolder
          audioFolder strokesFolder hadManifest st) st).2.2.totalPages = st.2.2.totalPages := by
  induction rest with
  | nil => intro st; rfl
  | cons q qs ih =>
    intro st
    rw [List.foldl_cons]
    exact (ih _).trans (importPage_summary_totalPages env failPaths settings book q
      bookFolder imagesFolder audioFolder strokesFolder hadManifest st)

theorem importFold_deletedPages (env : Env) (failPaths : FailOracle)
    (settings : ViwoodsSettings) (book : BookResult)
    (bookFolder imagesFolder audioFolder strokesFolder : String) (hadManifest : Bool)
    (rest : List Nat) :
    ∀ st : Vault × ImportManifest × ImportSummary,
      (rest.foldl (fun st pageNum =>
        importPage env failPaths settings book pageNum bookFolder imagesFolder
          audioFolder strokesFolder hadManifest st) st).2.2.deletedPages = st.2.2.deletedPages := by
  induction rest with
  | nil => intro st; rfl
  | cons q qs ih =>
    intro st
    rw [List.foldl_cons]
    exact (ih _).trans (importPage_deletedPages env failPaths settings book q
      bookFolder imagesFolder audioFolder strokesFolder hadManifest st)

theorem importFold_lookup_frame (env : Env) (failPaths : FailOracle)
    (settings : ViwoodsSettings) (book : BookResult)
    (bookFolder imagesFolder audioFolder strokesFolder : String) (hadManifest : Bool)
    (rest : List Nat) (k : Nat) (hk : k ∉ rest) :
    ∀ st : Vault × ImportManifest × ImportSummary,
      lookupRecord (rest.foldl (fun st pageNum =>
        importPage env failPaths settings book pageNum bookFolder imagesFolder
          audioFolder strokesFolder hadManifest st) st).2.1.importedPages k =
        lookupRecord st.2.1.importedPages k := by
  induction rest with
  | nil => intro st; rfl
  | cons q qs ih =>
    intro st
    rw [List.foldl_cons]
    have hkq : k ≠ q := fun hkq => hk (hkq ▸ List.mem_cons_self q qs)
    have hkqs : k ∉ qs := fun hin => hk (List.mem_cons_of_mem q hin)
    exact (ih hkqs _).trans (importPage_manifest_lookup_ne env failPaths settings book q
      bookFolder imagesFolder audioFolder strokesFolder hadManifest st k hkq)

theorem importFold_vault_frame (env : Env) (failPaths : FailOracle)
    (settings : ViwoodsSettings) (book : BookResult)
    (bookFolder imagesFolder audioFolder strokesFolder : String) (hadManifest : Bool)
    (rest : List Nat) (pa : String)
    (hpa : ∀ q ∈ rest, pa ∉ touchedPaths book bookFolder imagesFolder audioFolder strokesFolder q) :
    ∀ st : Vault × ImportManifest × ImportSummary,
      (rest.foldl (fun st pageNum =>
        importPage env failPaths settings book pageNum bookFolder imagesFolder
          audioFolder strokesFolder hadManifest st) st).1 pa = st.1 pa := by
  induction rest with
  | nil => intro st; rfl
  | cons q qs ih =>
    intro st
    rw [List.foldl_cons]
    have h1 := hpa q (List.mem_cons_self q qs)
    have h2 : ∀ r ∈ qs, pa ∉ touchedPaths book bookFolder imagesFolder audioFolder strokesFolder r :=
      fun r hr => hpa r (List.mem_cons_of_mem q hr)
    exact (ih h2 _).trans (importPage_vault_frame env failPaths settings book q
      bookFolder imagesFolder audioFolder strokesFolder hadManifest st pa h1)

theorem importFold_errors_mem_mono (env : Env) (failPaths : FailOracle)
    (settings : ViwoodsSettings) (book : BookResult)
    (bookFolder imagesFolder audioFolder strokesFolder : String) (hadManifest : Bool)
    (rest : List Nat) (p : Nat) :
    ∀ st : Vault × ImportManifest × ImportSummary,
      p ∈ st.2.2.errors.map (fun er => er.page) →
      p ∈ (rest.foldl (fun st pageNum =>
        importPage env failPaths settings book pageNum bookFolder imagesFolder
          audioFolder strokesFolder hadManifest st) st).2.2.errors.map (fun er => er.page) := by
  induction rest with
  | nil => intro st h; exact h
  | cons q qs ih =>
    intro st h
    rw [List.foldl_cons]
    refine ih _ ?_
    obtain ⟨t, ht⟩ := importPage_errors_append env failPaths settings book q
      bookFolder imagesFolder audioFolder strokesFolder hadManifest st
    rw [ht, List.map_append]
    exact List.mem_append.mpr (Or.inl h)

theorem importFold_buckets_mem_mono (env : Env) (failPaths : FailOracle)
    (settings : ViwoodsSettings) (book : BookResult)
    (bookFolder imagesFolder audioFolder strokesFolder : String) (hadManifest : Bool)
    (rest : List Nat) (p : Nat) :
    ∀ st : Vault × ImportManifest × ImportSummary,
      p ∈ st.2.2.newPages ++ st.2.2.modifiedPages ++ st.2.2.unchangedPages →
      p ∈ (rest.foldl (fun st pageNum =>
        importPage env failPaths settings book pageNum bookFolder imagesFolder
          audioFolder strokesFolder hadManifest st) st).2.2.newPages ++
        (rest.foldl (fun st pageNum =>
          importPage env failPaths settings book pageNum bookFolder imagesFolder
            audioFolder strokesFolder hadManifest st) st).2.2.modifiedPages ++
        (rest.foldl (fun st pageNum =>
          importPage env failPaths settings book pageNum bookFolder imagesFolder
            audioFolder strokesFolder hadManifest st) st).2.2.unchangedPages := by
  induction rest with
  | nil => intro st h; exact h
  | cons q qs ih =>
    intro st h
    rw [List.foldl_cons]
    refine ih _ ?_
    obtain ⟨a, b, c, ha, hb, hc⟩ := importPage_buckets_append env failPaths settings book q
      bookFolder imagesFolder audioFolder strokesFolder hadManifest st
    rw [ha, hb, hc]
    simp only [List.mem_append] at h ⊢
    rcases h with (h | h) | h
    · exact Or.inl (Or.inl (Or.inl h))
    · exact Or.inl (Or.inr (Or.inl h))
    · exact Or.inr (Or.inl h)

/-- C6: after every `importSelectedPages` call, the manifest's `totalPages`
equals `max(prior totalPages, number of pages in the fresh book)` (a
missing manifest counts as prior 0), so `totalPages` never decreases; in
particular, importing a fresh 5-page book into a manifest with prior
`totalPages = 8` leaves it at 8. -/
theorem C6_totalPages_monotone (env : Env) (failPaths : FailOracle)
    (settings : ViwoodsSettings) (book : BookResult) (pagesToImport : List Nat)
    (existingManifest : Option ImportManifest) (v0 : Vault) :
    (importSelectedPages env failPaths settings book pagesToImport existingManifest v0).2.1.totalPages =
      max (match existingManifest with | some m => m.totalPages | none => 0) book.pages.length ∧
    (importSelectedPages fxEnv noFail fxSettings fxBook5 [1, 2, 3, 4, 5]
      (some fxManifest8) emptyVault).2.1.totalPages = 8 := by
  constructor
  · simp only [importSelectedPages]
    rw [importFold_manifest_totalPages]
    cases existingManifest <;> rfl
  · simp only [importSelectedPages]
    rw [importFold_manifest_totalPages]
    rfl

/-- C1 counterexample: with no manifest and a write failure on page 1's
markdown file, the returned summary lists page 1 in `errors` AND in the
`newPages` success bucket — the claim that a failed page appears in none of
the success buckets is false, because the bucket push at
page-processor.ts lines 472-474 precedes the fallible writes. -/
theorem C1_counterexample :
    (importSelectedPages fxEnv fxFailPage1 fxSettings (fxBook1 "h1") [1]
      none emptyVault).2.2.errors = [{ page := 1, error := "disk full" }] ∧
    (importSelectedPages fxEnv fxFailPage1 fxSettings (fxBook1 "h1") [1]
      none emptyVault).2.2.newPages = [1] := by
  refine ⟨by decide, by decide⟩

/-- C1 (amended): for every call to `importSelectedPages` and every
requested page in the selection, `summary.totalPages` counts every
requested page; if importing a page present in the fresh book fails, the
page appears in `summary.errors` AND also in the success bucket it was
assigned when it was classified before the failure — a failed page is
reported, never silently dropped, but it is not removed from its success
bucket. -/
theorem C1_amended_failure_accounting (env : Env) (failPaths : FailOracle)
    (settings : ViwoodsSettings) (book : BookResult) (pagesToImport : List Nat)
    (existingManifest : Option ImportManifest) (v0 : Vault) (p : Nat)
    (page : PageData) (err : String)
    (hp : p ∈ pagesToImport)
    (hfind : book.pages.find? (fun x => x.pageNum == p) = some page)
    (hfail : failPaths (pageFilePath (settings.notesFolder ++ "/" ++ book.bookName) p) = some err) :
    (importSelectedPages env failPaths settings book pagesToImport existingManifest v0).2.2.totalPages =
      pagesToImport.length ∧
    p ∈ (importSelectedPages env failPaths settings book pagesToImport existingManifest
      v0).2.2.errors.map (fun er => er.page) ∧
    p ∈ (importSelectedPages env failPaths settings book pagesToImport existingManifest v0).2.2.newPages ++
      (importSelectedPages env failPaths settings book pagesToImport existingManifest v0).2.2.modifiedPages ++
      (importSelectedPages env failPaths settings book pagesToImport existingManifest v0).2.2.unchangedPages := by
  obtain ⟨l1, l2, hsplit⟩ := List.append_of_mem hp
  refine ⟨?_, ?_, ?_⟩
  · simp only [importSelectedPages]
    rw [importFold_summary_totalPages]
  · simp only [importSelectedPages]
    rw [hsplit, List.foldl_append, List.foldl_cons]
    refine importFold_errors_mem_mono env failPaths settings book _ _ _ _
      existingManifest.isSome l2 p _ ?_
    obtain ⟨msg, hmsg⟩ := importPage_any_fail env failPaths settings book p
      (settings.notesFolder ++ "/" ++ book.bookName) _ _ _ existingManifest.isSome
      _ page err hfind hfail
    rw [hmsg, List.map_append]
    exact List.mem_append.mpr (Or.inr (by simp))
  · simp only [importSelectedPages]
    rw [hsplit, List.foldl_append, List.foldl_cons]
    refine importFold_buckets_mem_mono env failPaths settings book _ _ _ _
      existingManifest.isSome l2 p _ ?_
    exact importPage_found_bucket_mem env failPaths settings book p
      (settings.notesFolder ++ "/" ++ book.bookName) _ _ _ existingManifest.isSome
      _ page hfind

/-- Closed witness for the amended C1 at the concrete failing-page
scenario. -/
theorem C1_amended_failure_accounting_witness :
    (importSelectedPages fxEnv fxFailPage1 fxSettings (fxBook1 "h1") [1]
      none emptyVault).2.2.totalPages = 1 ∧
    1 ∈ (importSelectedPages fxEnv fxFailPage1 fxSettings (fxBook1 "h1") [1]
      none emptyVault).2.2.errors.map (fun er => er.page) :=
  ⟨(C1_amended_failure_accounting fxEnv fxFailPage1 fxSettings (fxBook1 "h1") [1]
      none emptyVault 1 (fxPage 1 "h1") "disk full" (by decide) (by decide) (by decide)).1,
   (C1_amended_failure_accounting fxEnv fxFailPage1 fxSettings (fxBook1 "h1") [1]
      none emptyVault 1 (fxPage 1 "h1") "disk full" (by decide) (by decide) (by decide)).2.1⟩

theorem find?_pageNum (book : BookResult) (q : Nat) (pd : PageData)
    (h : book.pages.find? (fun x => x.pageNum == q) = some pd) : pd.pageNum = q := by
  have hb := List.find?_some h
  simpa using hb

theorem importedRecordFor_congr (env : Env) (settings : ViwoodsSettings)
    (l1 l2 : List (Nat × PageRecord)) (pd : PageData)
    (h : lookupRecord l1 pd.pageNum = lookupRecord l2 pd.pageNum) :
    importedRecordFor env settings l1 pd = importedRecordFor env settings l2 pd := by
  unfold importedRecordFor
  rw [h]

theorem importPage_fail_manifest (env : Env) (failPaths : FailOracle)
    (settings : ViwoodsSettings) (book : BookResult) (pageNum : Nat)
    (bookFolder imagesFolder audioFolder strokesFolder : String) (hadManifest : Bool)
    (st : Vault × ImportManifest × ImportSummary) (page : PageData) (err : String)
    (hfind : book.pages.find? (fun p => p.pageNum == pageNum) = some page)
    (hmd : failPaths (pageFilePath bookFolder pageNum) = some err) :
    (importPage env failPaths settings book pageNum bookFolder imagesFolder
      audioFolder strokesFolder hadManifest st).2.1 = st.2.1 := by
  obtain ⟨v, m, s⟩ := st
  simp only [importPage, hfind]
  obtain ⟨msg, hmsg⟩ := importPageBody_fails env failPaths settings book page pageNum bookFolder
    imagesFolder audioFolder strokesFolder m
    ((if hadManifest then lookupRecord m.importedPages pageNum else none).isNone)
    (decide ((if hadManifest then lookupRecord m.importedPages pageNum else none).map
      (fun r => r.imageHash) ≠ some page.image.hash))
    (if hadManifest then lookupRecord m.importedPages pageNum else none) v err hmd
  rw [hmsg]

theorem C4_fold (env : Env) (failPaths : FailOracle) (settings : ViwoodsSettings)
    (book : BookResult) (bF iF aF sF : String) (had : Bool)
    (p : Nat) (err : String) (pageP : PageData)
    (hfindP : book.pages.find? (fun x => x.pageNum == p) = some pageP)
    (hfail : failPaths (pageFilePath bF p) = some err)
    (honly : ∀ pa, pa ≠ pageFilePath bF p → failPaths pa = none) :
    ∀ rest : List Nat, rest.Nodup →
    (∀ q ∈ rest, q ≠ p → pageFilePath bF p ∉ touchedPaths book bF iF aF sF q) →
    ∀ st : Vault × ImportManifest × ImportSummary,
    (p ∈ rest → ∃ msg, (rest.foldl (fun st q =>
        importPage env failPaths settings book q bF iF aF sF had st) st).2.2.errors =
      st.2.2.errors ++ [{ page := p, error := msg }]) ∧
    (p ∉ rest → (rest.foldl (fun st q =>
        importPage env failPaths settings book q bF iF aF sF had st) st).2.2.errors =
      st.2.2.errors) ∧
    (∀ q ∈ rest, q ≠ p → ∀ pd, book.pages.find? (fun x => x.pageNum == q) = some pd →
      lookupRecord (rest.foldl (fun st q =>
        importPage env failPaths settings book q bF iF aF sF had st) st).2.1.importedPages q =
        some (importedRecordFor env settings st.2.1.importedPages pd)) := by
  intro rest
  induction rest with
  | nil =>
    intro _ _ st
    exact ⟨fun h => absurd h (by simp), fun _ => rfl, fun q hq => absurd hq (by simp)⟩
  | cons q qs ih =>
    intro hnd hdisj st
    rw [List.nodup_cons] at hnd
    obtain ⟨hqnotqs, hndqs⟩ := hnd
    have hdisj' : ∀ r ∈ qs, r ≠ p → pageFilePath bF p ∉ touchedPaths book bF iF aF sF r :=
      fun r hr => hdisj r (List.mem_cons_of_mem q hr)
    rw [List.foldl_cons]
    by_cases hqp : q = p
    · subst hqp
      have hfm := importPage_fail_manifest env failPaths settings book q bF iF aF sF had
        st pageP err hfindP hfail
      obtain ⟨msg, herr⟩ := importPage_any_fail env failPaths settings book q bF iF aF sF had
        st pageP err hfindP hfail
      obtain ⟨IH1, IH2, IH3⟩ := ih hndqs hdisj'
        (importPage env failPaths settings book q bF iF aF sF had st)
      refine ⟨fun _ => ⟨msg, by rw [IH2 hqnotqs, herr]⟩,
        fun hcon => absurd (List.mem_cons_self q qs) hcon, ?_⟩
      intro q' hq' hq'p pd hfindq'
      rcases List.mem_cons.mp hq' with rfl | hq'qs
      · exact absurd rfl hq'p
      · have h3 := IH3 q' hq'qs hq'p pd hfindq'
        rw [hfm] at h3
        exact h3
    · cases hfq : book.pages.find? (fun x => x.pageNum == q) with
      | none =>
        rw [importPage_not_found env failPaths settings book q bF iF aF sF had st hfq]
        obtain ⟨IH1, IH2, IH3⟩ := ih hndqs hdisj' st
        refine ⟨fun hin => ?_, fun hout => ?_, ?_⟩
        · rcases List.mem_cons.mp hin with rfl | hin2
          · exact absurd rfl (fun h => hqp h.symm)
          · exact IH1 hin2
        · exact IH2 (fun h2 => hout (List.mem_cons_of_mem q h2))
        · intro q' hq' hq'p pd hfindq'
          rcases List.mem_cons.mp hq' with rfl | hq'qs
          · rw [hfq] at hfindq'
            cases hfindq'
          · exact IH3 q' hq'qs hq'p pd hfindq'
      | some pd0 =>
        have hd := hdisj q (List.mem_cons_self q qs) hqp
        simp only [touchedPaths, hfq] at hd
        have hstrokeq : failPaths (strokeFilePath sF book.bookName q) = none := by
          refine honly _ (fun hcon => hd ?_)
          rw [← hcon]
          exact List.mem_append_left _ (by simp)
        have hmdq : failPaths (pageFilePath bF q) = none := by
          refine honly _ (fun hcon => hd ?_)
          rw [← hcon]
          exact List.mem_append_left _ (by simp)
        have hsvgq : failPaths (svgFilePath iF book.bookName q) = none := by
          refine honly _ (fun hcon => hd ?_)
          rw [← hcon]
          exact List.mem_append_left _ (by simp)
        have h5q : ∀ a, pd0.audio = some a → failPaths (aF ++ "/" ++ a.name) = none := by
          intro a ha
          refine honly _ (fun hcon => hd ?_)
          rw [← hcon, ha]
          exact List.mem_append_right _ (by simp)
        have hsucc := importPage_success env failPaths settings book q bF iF aF sF had
          st pd0 hfq hstrokeq hmdq hsvgq h5q
        obtain ⟨IH1, IH2, IH3⟩ := ih hndqs hdisj'
          (importPage env failPaths settings book q bF iF aF sF had st)
        refine ⟨fun hin => ?_, fun hout => ?_, ?_⟩
        · rcases List.mem_cons.mp hin with rfl | hin2
          · exact absurd rfl (fun h => hqp h.symm)
          · obtain ⟨msg, h⟩ := IH1 hin2
            exact ⟨msg, by rw [h, hsucc.1]⟩
        · rw [IH2 (fun h2 => hout (List.mem_cons_of_mem q h2)), hsucc.1]
        · intro q' hq' hq'p pd hfindq'
          rcases List.mem_cons.mp hq' with rfl | hq'qs
          · rw [importFold_lookup_frame env failPaths settings book bF iF aF sF had qs q'
              hqnotqs]
            rw [hfq] at hfindq'
            injection hfindq' with hpd
            subst hpd
            have : lookupRecord (importPage env failPaths settings book q' bF iF aF sF had
                st).2.1.importedPages q' =
                some (importedRecordFor env settings st.2.1.importedPages pd0) := by
              rw [hsucc.2]
              exact setRecord_lookup_self _ _ _
            exact this
          · have h3 := IH3 q' hq'qs hq'p pd hfindq'
            rw [h3]
            have hpn : pd.pageNum = q' := find?_pageNum book q' pd hfindq'
            have hlook : lookupRecord (importPage env failPaths settings book q bF iF aF sF had
                st).2.1.importedPages pd.pageNum = lookupRecord st.2.1.importedPages pd.pageNum := by
              rw [hsucc.2, hpn]
              exact setRecord_lookup_ne _ _ _ _ (fun h => hqnotqs (h ▸ hq'qs))
            rw [importedRecordFor_congr env settings _ _ pd hlook]

/-- C4: if during `importSelectedPages` exactly one requested page's
markdown write throws (and no other write path fails), the returned
summary's `errors` holds exactly one entry, for that page, and every OTHER
requested page present in the fresh book has its record fully written into
the manifest's `importedPages` — a single failing page never aborts the
batch or the whole import. -/
theorem C4_failure_isolation (env : Env) (failPaths : FailOracle)
    (settings : ViwoodsSettings) (book : BookResult) (pagesToImport : List Nat)
    (existingManifest : Option ImportManifest) (v0 : Vault) (p : Nat)
    (err : String) (pageP : PageData)
    (hnd : pagesToImport.Nodup)
    (hp : p ∈ pagesToImport)
    (hfindP : book.pages.find? (fun x => x.pageNum == p) = some pageP)
    (hfail : failPaths (pageFilePath (settings.notesFolder ++ "/" ++ book.bookName) p) = some err)
    (honly : ∀ pa, pa ≠ pageFilePath (settings.notesFolder ++ "/" ++ book.bookName) p →
      failPaths pa = none)
    (hdisj : ∀ q ∈ pagesToImport, q ≠ p →
      pageFilePath (settings.notesFolder ++ "/" ++ book.bookName) p ∉
        touchedPaths book (settings.notesFolder ++ "/" ++ book.bookName)
          ((settings.notesFolder ++ "/" ++ book.bookName) ++ "/" ++ settings.imagesFolder)
          ((settings.notesFolder ++ "/" ++ book.bookName) ++ "/" ++ settings.audioFolder)
          ((settings.notesFolder ++ "/" ++ book.bookName) ++ "/" ++ settings.strokesFolder) q) :
    (importSelectedPages env failPaths settings book pagesToImport existingManifest
        v0).2.2.errors.map (fun er => er.page) = [p] ∧
    (∀ q ∈ pagesToImport, q ≠ p → ∀ pd, book.pages.find? (fun x => x.pageNum == q) = some pd →
      lookupRecord (importSelectedPages env failPaths settings book pagesToImport
          existingManifest v0).2.1.importedPages q =
        some (importedRecordFor env settings
          (startingManifest env book existingManifest).importedPages pd)) := by
  obtain ⟨H1, H2, H3⟩ := C4_fold env failPaths settings book
    (settings.notesFolder ++ "/" ++ book.bookName)
    ((settings.notesFolder ++ "/" ++ book.bookName) ++ "/" ++ settings.imagesFolder)
    ((settings.notesFolder ++ "/" ++ book.bookName) ++ "/" ++ settings.audioFolder)
    ((settings.notesFolder ++ "/" ++ book.bookName) ++ "/" ++ settings.strokesFolder)
    existingManifest.isSome p err pageP hfindP hfail honly pagesToImport hnd hdisj
    (v0, startingManifest env book existingManifest,
     { totalPages := pagesToImport.length, newPages := [], modifiedPages := [],
       unchangedPages := [], deletedPages := [], errors := [] })
  constructor
  · obtain ⟨msg, hmsg⟩ := H1 hp
    simp only [importSelectedPages]
    rw [hmsg]
    rfl
  · simp only [importSelectedPages]
    intro q hq hqp pd hfind
    exact H3 q hq hqp pd hfind

/-- Closed witness for C4: pages 1-5, page 3's markdown write throws; the
summary's errors name exactly page 3 and page 2's record is in the
manifest. -/
theorem C4_failure_isolation_witness :
    (importSelectedPages fxEnv fxFailPage3 fxSettings fxBook5 [1, 2, 3, 4, 5]
        none emptyVault).2.2.errors.map (fun er => er.page) = [3] ∧
    lookupRecord (importSelectedPages fxEnv fxFailPage3 fxSettings fxBook5 [1, 2, 3, 4, 5]
        none emptyVault).2.1.importedPages 2 =
      some (importedRecordFor fxEnv fxSettings
        (startingManifest fxEnv fxBook5 none).importedPages (fxPage 2 "h2")) :=
  ⟨(C4_failure_isolation fxEnv fxFailPage3 fxSettings fxBook5 [1, 2, 3, 4, 5] none emptyVault
      3 "disk full" (fxPage 3 "h3") (by decide) (by decide) (by decide) (by decide)
      (by
        intro pa h
        show (if pa = "Notes/B/Page 003.md" then some "disk full" else none) = none
        rw [if_neg]
        intro hc
        exact h (by rw [hc]; decide))
      (by decide)).1,
   (C4_failure_isolation fxEnv fxFailPage3 fxSettings fxBook5 [1, 2, 3, 4, 5] none emptyVault
      3 "disk full" (fxPage 3 "h3") (by decide) (by decide) (by decide) (by decide)
      (by
        intro pa h
        show (if pa = "Notes/B/Page 003.md" then some "disk full" else none) = none
        rw [if_neg]
        intro hc
        exact h (by rw [hc]; decide))
      (by decide)).2 2 (by decide) (by decide) (fxPage 2 "h2") (by decide)⟩

/-- C7: every manifest page number absent from the fresh archive is
classified `deleted` by `analyzeChanges` (a pure function of the vault — it
deletes nothing), and a subsequent `importSelectedPages` over the surviving
pages neither removes the deleted page's manifest record nor touches its
on-disk file: deletion is only reported, never enacted. -/
theorem C7_deletion_report_only (env : Env) (failPaths : FailOracle)
    (settings : ViwoodsSettings) (book : BookResult) (m : ImportManifest)
    (pagesToImport : List Nat) (v0 : Vault) (k : Nat) (rec : PageRecord)
    (hnd : (book.pages.map (fun q => q.pageNum)).Nodup)
    (hrec : lookupRecord m.importedPages k = some rec)
    (hnotfresh : k ∉ book.pages.map (fun q => q.pageNum))
    (hnotreq : k ∉ pagesToImport)
    (hpath : ∀ q ∈ pagesToImport,
      pageFilePath (settings.notesFolder ++ "/" ++ book.bookName) k ∉
        touchedPaths book (settings.notesFolder ++ "/" ++ book.bookName)
          ((settings.notesFolder ++ "/" ++ book.bookName) ++ "/" ++ settings.imagesFolder)
          ((settings.notesFolder ++ "/" ++ book.bookName) ++ "/" ++ settings.audioFolder)
          ((settings.notesFolder ++ "/" ++ book.bookName) ++ "/" ++ settings.strokesFolder) q) :
    k ∈ (analyzeChanges v0 book (some m) settings).2.deletedPages ∧
    lookupRecord (importSelectedPages env failPaths settings book pagesToImport
      (some m) v0).2.1.importedPages k = some rec ∧
    (importSelectedPages env failPaths settings book pagesToImport (some m) v0).1
        (pageFilePath (settings.notesFolder ++ "/" ++ book.bookName) k) =
      v0 (pageFilePath (settings.notesFolder ++ "/" ++ book.bookName) k) := by
  refine ⟨?_, ?_, ?_⟩
  · rw [analyzeChanges_some_characterize v0 book m settings hnd]
    have hcont : ((book.pages.map (fun q => q.pageNum)).contains k) = false := by
      cases hc : (book.pages.map (fun q => q.pageNum)).contains k
      · rfl
      · exact absurd (List.elem_iff.mp hc) hnotfresh
    have hmem0 : (k, rec, resolveFileHash v0 (settings.notesFolder ++ "/" ++ book.bookName) k) ∈
        buildExistingMap v0 (settings.notesFolder ++ "/" ++ book.bookName) m.importedPages := by
      exact List.mem_map.mpr ⟨(k, rec), lookupRecord_mem hrec, rfl⟩
    refine List.mem_map.mpr ⟨(k, rec, resolveFileHash v0 (settings.notesFolder ++ "/" ++ book.bookName) k),
      List.mem_filter.mpr ⟨hmem0, ?_⟩, rfl⟩
    rw [hcont]
    rfl
  · simp only [importSelectedPages]
    rw [importFold_lookup_frame env failPaths settings book
      (settings.notesFolder ++ "/" ++ book.bookName) _ _ _ (some m).isSome
      pagesToImport k hnotreq]
    exact hrec
  · simp only [importSelectedPages]
    exact importFold_vault_frame env failPaths settings book
      (settings.notesFolder ++ "/" ++ book.bookName) _ _ _ (some m).isSome
      pagesToImport _ hpath _

/-- Closed witness for C7: manifest pages 1-3, fresh pages 1-2, import of
pages 1-2 — page 3 is reported deleted, its record and its on-disk file
survive. -/
theorem C7_deletion_report_only_witness :
    3 ∈ (analyzeChanges fxVaultC7 fxBook2 (some fxManifest123) fxSettings).2.deletedPages ∧
    lookupRecord (importSelectedPages fxEnv noFail fxSettings fxBook2 [1, 2]
      (some fxManifest123) fxVaultC7).2.1.importedPages 3 = some (fxRec "h3") ∧
    (importSelectedPages fxEnv noFail fxSettings fxBook2 [1, 2]
        (some fxManifest123) fxVaultC7).1 "Notes/B/Page 003.md" = some "page 3 contents" := by
  have h := C7_deletion_report_only fxEnv noFail fxSettings fxBook2 fxManifest123 [1, 2]
    fxVaultC7 3 (fxRec "h3") (by decide) (by decide) (by decide) (by decide) (by decide)
  refine ⟨h.1, h.2.1, ?_⟩
  exact h.2.2.trans (by decide)

theorem vaultSet_self (v : Vault) (path content : String) :
    vaultSet v path content path = some content := by
  simp [vaultSet]

theorem saveStrokeData_write (failPaths : FailOracle) (v : Vault) (env : Env)
    (stk : List (List Int)) (bookName : String) (pageNum : Nat) (sF : String) (su : Bool)
    (hok : failPaths (strokeFilePath sF bookName pageNum) = none) :
    (su = true →
      (saveStrokeData failPaths v env stk bookName pageNum sF su).1
        (strokeFilePath sF bookName pageNum) = some (env.stringifyStroke stk)) ∧
    (su = false → v (strokeFilePath sF bookName pageNum) = none →
      (saveStrokeData failPaths v env stk bookName pageNum sF su).1
        (strokeFilePath sF bookName pageNum) = some (env.stringifyStroke stk)) ∧
    (su = false → ∀ c, v (strokeFilePath sF bookName pageNum) = some c →
      (saveStrokeData failPaths v env stk bookName pageNum sF su).1
        (strokeFilePath sF bookName pageNum) = some c) := by
  simp only [saveStrokeData]
  refine ⟨?_, ?_, ?_⟩
  · intro hsu
    subst hsu
    cases hv : v (strokeFilePath sF bookName pageNum) with
    | some c =>
      simp only [hv, if_true]
      rw [vaultWrite_ok _ _ _ _ hok]
      exact vaultSet_self _ _ _
    | none =>
      simp only [hv]
      rw [vaultWrite_ok _ _ _ _ hok]
      exact vaultSet_self _ _ _
  · intro hsu hv
    subst hsu
    simp only [hv]
    rw [vaultWrite_ok _ _ _ _ hok]
    exact vaultSet_self _ _ _
  · intro hsu c hv
    subst hsu
    simp only [hv]
    exact hv

theorem importPageBody_stroke_path (env : Env) (failPaths : FailOracle)
    (settings : ViwoodsSettings) (book : BookResult) (page : PageData) (pageNum : Nat)
    (bookFolder imagesFolder audioFolder strokesFolder : String)
    (manifest : ImportManifest) (isNew isModified : Bool) (recOpt : Option PageRecord)
    (v : Vault) (stk : List (List Int))
    (hstk : page.stroke = some stk)
    (hdist2 : strokeFilePath strokesFolder book.bookName pageNum ≠ pageFilePath bookFolder pageNum)
    (hdist3 : strokeFilePath strokesFolder book.bookName pageNum ≠
      imageFilePath imagesFolder book.bookName pageNum)
    (hdist4 : strokeFilePath strokesFolder book.bookName pageNum ≠
      svgFilePath imagesFolder book.bookName pageNum)
    (hdist5 : ∀ a, page.audio = some a →
      strokeFilePath strokesFolder book.bookName pageNum ≠ audioFolder ++ "/" ++ a.name) :
    (importPageBody env failPaths settings book page pageNum bookFolder imagesFolder
        audioFolder strokesFolder manifest isNew isModified recOpt v).1
      (strokeFilePath strokesFolder book.bookName pageNum) =
    (saveStrokeData failPaths v env stk book.bookName pageNum strokesFolder
        (isNew || isModified)).1 (strokeFilePath strokesFolder book.bookName pageNum) := by
  have himg : ∀ (w : Vault),
      (if settings.outputFormat = OutputFormat.png || settings.outputFormat = OutputFormat.both then
        savePageImage failPaths w env settings page book.bookName pageNum imagesFolder
          isNew isModified recOpt
       else w) (strokeFilePath strokesFolder book.bookName pageNum) =
      w (strokeFilePath strokesFolder book.bookName pageNum) := by
    intro w
    cases hc : (decide (settings.outputFormat = OutputFormat.png) ||
        decide (settings.outputFormat = OutputFormat.both)) with
    | false => simp [hc]
    | true =>
      simp only [hc, if_true]
      exact savePageImage_frame _ _ _ _ _ _ _ _ _ _ _ _ hdist3
  have hsvg : ∀ (w : Vault) (su : Bool),
      ((if settings.outputFormat = OutputFormat.svg || settings.outputFormat = OutputFormat.both then
          savePageSvg failPaths w env stk book.bookName pageNum imagesFolder su
        else (w, none)) : Vault × Option String).1
        (strokeFilePath strokesFolder book.bookName pageNum) =
      w (strokeFilePath strokesFolder book.bookName pageNum) := by
    intro w su
    cases hc : (decide (settings.outputFormat = OutputFormat.svg) ||
        decide (settings.outputFormat = OutputFormat.both)) with
    | false => simp [hc]
    | true =>
      simp only [hc, if_true]
      exact savePageSvg_frame _ _ _ _ _ _ _ _ _ hdist4
  have haud : ∀ (w : Vault) (su : Bool),
      ((match page.audio with
        | some audio => savePageAudio failPaths w audio audioFolder su
        | none => (w, none)) : Vault × Option String).1
        (strokeFilePath strokesFolder book.bookName pageNum) =
      w (strokeFilePath strokesFolder book.bookName pageNum) := by
    intro w su
    cases ha : page.audio with
    | none => rfl
    | some audio => exact savePageAudio_frame _ _ _ _ _ _ (hdist5 audio ha)
  simp only [importPageBody, hstk]
  split
  · rfl
  · split
    · exact vaultWrite_frame _ _ _ _ _ hdist2
    · split
      · exact (hsvg _ _).trans ((himg _).trans (vaultWrite_frame _ _ _ _ _ hdist2))
      · exact (haud _ _).trans ((hsvg _ _).trans ((himg _).trans
          (vaultWrite_frame _ _ _ _ _ hdist2)))

/-- C10 (amended): for every imported page that carries stroke data (and
whose stroke path no other artifact write touches), the stroke data file is
written when the page is new or modified; when the page is unchanged the
write is skipped ONLY if the stroke file already exists on disk — a missing
stroke file is created even for an unchanged page
(page-processor.ts lines 534-538). -/
theorem C10_amended_stroke_write (env : Env) (failPaths : FailOracle)
    (settings : ViwoodsSettings) (book : BookResult) (pageNum : Nat)
    (bookFolder imagesFolder audioFolder strokesFolder : String) (hadManifest : Bool)
    (st : Vault × ImportManifest × ImportSummary) (pd : PageData) (stk : List (List Int))
    (hfind : book.pages.find? (fun x => x.pageNum == pageNum) = some pd)
    (hstk : pd.stroke = some stk)
    (hok : failPaths (strokeFilePath strokesFolder book.bookName pageNum) = none)
    (hdist2 : strokeFilePath strokesFolder book.bookName pageNum ≠ pageFilePath bookFolder pageNum)
    (hdist3 : strokeFilePath strokesFolder book.bookName pageNum ≠
      imageFilePath imagesFolder book.bookName pageNum)
    (hdist4 : strokeFilePath strokesFolder book.bookName pageNum ≠
      svgFilePath imagesFolder book.bookName pageNum)
    (hdist5 : ∀ a, pd.audio = some a →
      strokeFilePath strokesFolder book.bookName pageNum ≠ audioFolder ++ "/" ++ a.name) :
    (pageShouldUpdate hadManifest st.2.1 pageNum pd = true →
      (importPage env failPaths settings book pageNum bookFolder imagesFolder audioFolder
          strokesFolder hadManifest st).1 (strokeFilePath strokesFolder book.bookName pageNum) =
        some (env.stringifyStroke stk)) ∧
    (pageShouldUpdate hadManifest st.2.1 pageNum pd = false →
      st.1 (strokeFilePath strokesFolder book.bookName pageNum) = none →
      (importPage env failPaths settings book pageNum bookFolder imagesFolder audioFolder
          strokesFolder hadManifest st).1 (strokeFilePath strokesFolder book.bookName pageNum) =
        some (env.stringifyStroke stk)) ∧
    (pageShouldUpdate hadManifest st.2.1 pageNum pd = false →
      ∀ c, st.1 (strokeFilePath strokesFolder book.bookName pageNum) = some c →
      (importPage env failPaths settings book pageNum bookFolder imagesFolder audioFolder
          strokesFolder hadManifest st).1 (strokeFilePath strokesFolder book.bookName pageNum) =
        some c) := by
  obtain ⟨v, m, s⟩ := st
  simp only [importPage, hfind]
  have hkey := saveStrokeData_write failPaths v env stk book.bookName pageNum strokesFolder
    ((if hadManifest then lookupRecord m.importedPages pageNum else none).isNone ||
      decide ((if hadManifest then lookupRecord m.importedPages pageNum else none).map
        (fun r => r.imageHash) ≠ some pd.image.hash)) hok
  refine ⟨?_, ?_, ?_⟩
  · intro hsu
    split
    · rw [importPageBody_stroke_path env failPaths settings book pd pageNum bookFolder
        imagesFolder audioFolder strokesFolder m _ _ _ v stk hstk hdist2 hdist3 hdist4 hdist5]
      exact hkey.1 hsu
    · rw [importPageBody_stroke_path env failPaths settings book pd pageNum bookFolder
        imagesFolder audioFolder strokesFolder m _ _ _ v stk hstk hdist2 hdist3 hdist4 hdist5]
      exact hkey.1 hsu
  · intro hsu hnone
    split
    · rw [importPageBody_stroke_path env failPaths settings book pd pageNum bookFolder
        imagesFolder audioFolder strokesFolder m _ _ _ v stk hstk hdist2 hdist3 hdist4 hdist5]
      exact hkey.2.1 hsu hnone
    · rw [importPageBody_stroke_path env failPaths settings book pd pageNum bookFolder
        imagesFolder audioFolder strokesFolder m _ _ _ v stk hstk hdist2 hdist3 hdist4 hdist5]
      exact hkey.2.1 hsu hnone
  · intro hsu c hc
    split
    · rw [importPageBody_stroke_path env failPaths settings book pd pageNum bookFolder
        imagesFolder audioFolder strokesFolder m _ _ _ v stk hstk hdist2 hdist3 hdist4 hdist5]
      exact hkey.2.2 hsu c hc
    · rw [importPageBody_stroke_path env failPaths settings book pd pageNum bookFolder
        imagesFolder audioFolder strokesFolder m _ _ _ v stk hstk hdist2 hdist3 hdist4 hdist5]
      exact hkey.2.2 hsu c hc

/-- C10 counterexample: an UNCHANGED page (record hash equals fresh hash)
with stroke data whose stroke file is absent — the import still creates the
stroke file, so the write is not skipped for unchanged pages when the file
is missing. -/
theorem C10_counterexample :
    (importSelectedPages fxEnv noFail fxSettings fxBookStroke [1]
      (some (fxManifest1 "h1")) emptyVault).2.2.unchangedPages = [1] ∧
    emptyVault "Notes/B/str/B_page_001_strokes.json" = none ∧
    (importSelectedPages fxEnv noFail fxSettings fxBookStroke [1]
      (some (fxManifest1 "h1")) emptyVault).1 "Notes/B/str/B_page_001_strokes.json" =
      some "strokes-json" := by
  refine ⟨by decide, rfl, by decide⟩

/-- Closed witness for the amended C10: the same unchanged page with an
existing stroke file keeps the file untouched, and with a modified hash the
file is rewritten. -/
theorem C10_amended_stroke_write_witness :
    pageShouldUpdate true (fxManifest1 "h1") 1 (fxPageStroke 1 "h1") = false ∧
    (importPage fxEnv noFail fxSettings fxBookStroke 1 "Notes/B" "Notes/B/img" "Notes/B/aud"
        "Notes/B/str" true
        ((fun p => if p = "Notes/B/str/B_page_001_strokes.json" then some "old-strokes" else none),
         fxManifest1 "h1",
         { totalPages := 1, newPages := [], modifiedPages := [], unchangedPages := [],
           deletedPages := [], errors := [] })).1 "Notes/B/str/B_page_001_strokes.json" =
      some "old-strokes" := by
  refine ⟨by decide, ?_⟩
  have h := (C10_amended_stroke_write fxEnv noFail fxSettings fxBookStroke 1 "Notes/B"
    "Notes/B/img" "Notes/B/aud" "Notes/B/str" true
    ((fun p => if p = "Notes/B/str/B_page_001_strokes.json" then some "old-strokes" else none),
     fxManifest1 "h1",
     { totalPages := 1, newPages := [], modifiedPages := [], unchangedPages := [],
       deletedPages := [], errors := [] })
    (fxPageStroke 1 "h1") [[1, 2, 3]] (by decide) (by decide) (by decide) (by decide)
    (by decide) (by decide) (by decide)).2.2 (by decide) "old-strokes" (by decide)
  exact h

theorem isPrefixOf_append_self (l t : List Char) : l.isPrefixOf (l ++ t) = true := by
  induction l with
  | nil => simp [List.isPrefixOf]
  | cons c rest ih => simp [List.isPrefixOf, ih]

theorem strStartsWith_of_append (pre t : String) :
    strStartsWith (pre ++ t) pre = true := by
  unfold strStartsWith
  rw [String.data_append]
  exact isPrefixOf_append_self pre.data t.data

theorem recoverRecord_hash_recovered (imageStat : String → Option (Nat × Nat))
    (settings : ViwoodsSettings) (bookFolder bookName : String)
    (isoOfMs : Nat → String) (child : VaultFile) (pageNum : Nat) :
    strStartsWith (recoverRecord imageStat settings bookFolder bookName isoOfMs
      child pageNum).imageHash "recovered-" = true := by
  simp only [recoverRecord]
  split
  · simp only [String.append_assoc]
    exact strStartsWith_of_append _ _
  · have e : ("recovered-unknown-" : String) = "recovered-" ++ "unknown-" := by decide
    rw [e, String.append_assoc]
    exact strStartsWith_of_append _ _

theorem setRecord_mem {l : List (Nat × PageRecord)} {n : Nat} {r : PageRecord}
    {e : Nat × PageRecord} (h : e ∈ setRecord l n r) : e ∈ l ∨ e = (n, r) := by
  induction l with
  | nil =>
    simp only [setRecord, List.mem_singleton] at h
    exact Or.inr h
  | cons a rest ih =>
    simp only [setRecord] at h
    split at h
    · rcases List.mem_cons.mp h with h1 | h1
      · exact Or.inr h1
      · exact Or.inl (List.mem_cons_of_mem _ h1)
    · rcases List.mem_cons.mp h with h1 | h1
      · exact Or.inl (h1 ▸ List.mem_cons_self a rest)
      · rcases ih h1 with h2 | h2
        · exact Or.inl (List.mem_cons_of_mem _ h2)
        · exact Or.inr h2

theorem recoverStep_hash_recovered (imageStat : String → Option (Nat × Nat))
    (settings : ViwoodsSettings) (bookFolder bookName : String)
    (isoOfMs : Nat → String) (st : Nat × List (Nat × PageRecord)) (child : VaultFile)
    (hst : ∀ e ∈ st.2, strStartsWith e.2.imageHash "recovered-" = true) :
    ∀ e ∈ (recoverStep imageStat settings bookFolder bookName isoOfMs st child).2,
      strStartsWith e.2.imageHash "recovered-" = true := by
  intro e he
  unfold recoverStep at he
  split at he
  · exact hst e he
  · rcases setRecord_mem he with h1 | h1
    · exact hst e h1
    · rw [h1]
      exact recoverRecord_hash_recovered imageStat settings bookFolder bookName isoOfMs
        child _

theorem recoverFold_hash_recovered (imageStat : String → Option (Nat × Nat))
    (settings : ViwoodsSettings) (bookFolder bookName : String)
    (isoOfMs : Nat → String) :
    ∀ (children : List VaultFile) (st : Nat × List (Nat × PageRecord)),
      (∀ e ∈ st.2, strStartsWith e.2.imageHash "recovered-" = true) →
      ∀ e ∈ (children.foldl
          (recoverStep imageStat settings bookFolder bookName isoOfMs) st).2,
        strStartsWith e.2.imageHash "recovered-" = true := by
  intro children
  induction children with
  | nil => intro st hst e he; exact hst e he
  | cons c rest ih =>
    intro st hst e he
    rw [List.foldl_cons] at he
    exact ih _ (recoverStep_hash_recovered imageStat settings bookFolder bookName
      isoOfMs st c hst) e he

theorem recoverFold_fst (imageStat : String → Option (Nat × Nat))
    (settings : ViwoodsSettings) (bookFolder bookName : String)
    (isoOfMs : Nat → String) :
    ∀ (children : List VaultFile) (st : Nat × List (Nat × PageRecord)),
      (children.foldl (recoverStep imageStat settings bookFolder bookName isoOfMs) st).1 =
      children.foldl
        (fun acc child =>
          match matchPageFile child.name with
          | none => acc
          | some pageNum => max acc pageNum) st.1 := by
  intro children
  induction children with
  | nil => intro st; rfl
  | cons c rest ih =>
    intro st
    rw [List.foldl_cons, List.foldl_cons, ih]
    congr 1
    unfold recoverStep
    split <;> rfl

theorem recoverFold_no_match (imageStat : String → Option (Nat × Nat))
    (settings : ViwoodsSettings) (bookFolder bookName : String)
    (isoOfMs : Nat → String) :
    ∀ (children : List VaultFile) (st : Nat × List (Nat × PageRecord)),
      (∀ f ∈ children, matchPageFile f.name = none) →
      children.foldl (recoverStep imageStat settings bookFolder bookName isoOfMs) st = st := by
  intro children
  induction children with
  | nil => intro st _; rfl
  | cons c rest ih =>
    intro st hall
    rw [List.foldl_cons]
    have hc : matchPageFile c.name = none := hall c (List.mem_cons_self c rest)
    have hstep : recoverStep imageStat settings bookFolder bookName isoOfMs st c = st := by
      unfold recoverStep
      rw [hc]
    rw [hstep]
    exact ih st (fun f hf => hall f (List.mem_cons_of_mem _ hf))

theorem addHistoryEntry_totalPages (m : ImportManifest) (a : String) (p : List Nat)
    (s : String) (k : Nat) (now : String) :
    (addHistoryEntry m a p s k now).totalPages = m.totalPages := by
  simp only [addHistoryEntry]
  split <;> rfl

theorem addHistoryEntry_importedPages (m : ImportManifest) (a : String) (p : List Nat)
    (s : String) (k : Nat) (now : String) :
    (addHistoryEntry m a p s k now).importedPages = m.importedPages := by
  simp only [addHistoryEntry]
  split <;> rfl

/-- C8: when the book folder exists and at least one file matches the page
regex, `recoverManifestFromExistingFiles` returns a manifest whose
`totalPages` is the maximum matched page number and all of whose records
carry the `recovered-` hash sentinel; when no file matches, or when the
folder is absent, it returns none (and hence persists nothing).  On the
concrete folder holding `Page 001.md` and `Page 003.md` plus an unrelated
`Index.md`, the recovered page keys are exactly 1 and 3 and `totalPages`
is 3. -/
theorem C8_recovery :
    (∀ (children : List VaultFile) (imageStat : String → Option (Nat × Nat))
        (settings : ViwoodsSettings) (bookFolder bookName now : String)
        (isoOfMs : Nat → String) (m : ImportManifest),
        recoverManifestFromExistingFiles (some children) imageStat settings
          bookFolder bookName now isoOfMs = some m →
        m.totalPages = maxMatchedPage children ∧
        ∀ e ∈ m.importedPages, strStartsWith e.2.imageHash "recovered-" = true) ∧
    (∀ (children : List VaultFile) (imageStat : String → Option (Nat × Nat))
        (settings : ViwoodsSettings) (bookFolder bookName now : String)
        (isoOfMs : Nat → String),
        (∀ f ∈ children, matchPageFile f.name = none) →
        recoverManifestFromExistingFiles (some children) imageStat settings
          bookFolder bookName now isoOfMs = none) ∧
    (∀ (imageStat : String → Option (Nat × Nat)) (settings : ViwoodsSettings)
        (bookFolder bookName now : String) (isoOfMs : Nat → String),
        recoverManifestFromExistingFiles none imageStat settings
          bookFolder bookName now isoOfMs = none) ∧
    (recoverManifestFromExistingFiles (some fxChildren) (fun _ => none) fxSettings
        "Notes/B" "B" "NOW" (fun n => Nat.repr n)).map
      (fun m => (m.totalPages, m.importedPages.map (fun e => e.1))) = some (3, [1, 3]) := by
  refine ⟨?_, ?_, ?_, ?_⟩
  · intro children imageStat settings bookFolder bookName now isoOfMs m h
    simp only [recoverManifestFromExistingFiles] at h
    split at h
    · injection h with h
      subst h
      constructor
      · rw [addHistoryEntry_totalPages]
        exact recoverFold_fst imageStat settings bookFolder bookName isoOfMs children (0, [])
      · intro e he
        rw [addHistoryEntry_importedPages] at he
        exact recoverFold_hash_recovered imageStat settings bookFolder bookName isoOfMs
          children (0, []) (fun e' he' => absurd he' (List.not_mem_nil e')) e he
    · exact Option.noConfusion h
  · intro children imageStat settings bookFolder bookName now isoOfMs hall
    simp only [recoverManifestFromExistingFiles]
    have h0 : recoverScan imageStat settings bookFolder bookName isoOfMs children = (0, []) :=
      recoverFold_no_match imageStat settings bookFolder bookName isoOfMs children
        (0, []) hall
    rw [h0]
    simp
  · intro imageStat settings bookFolder bookName now isoOfMs
    rfl
  · decide

/-- Closed witness for C8: a folder whose only file does not match the page
regex makes the recovery return none. -/
theorem C8_recovery_witness :
    (∀ f ∈ fxChildrenNoPages, matchPageFile f.name = none) ∧
    recoverManifestFromExistingFiles (some fxChildrenNoPages) (fun _ => none)
      fxSettings "Notes/B" "B" "NOW" (fun n => Nat.repr n) = none :=
  ⟨by decide, C8_recovery.2.1 fxChildrenNoPages (fun _ => none) fxSettings
    "Notes/B" "B" "NOW" (fun n => Nat.repr n) (by decide)⟩

theorem workflowStep_inv (s : WorkflowState) (e : WorkflowEvent)
    (h : (s.importInProgress = false ∧ s.active = []) ∨
         (s.importInProgress = true ∧ ∃ i, s.active = [i])) :
    ((workflowStep s e).importInProgress = false ∧ (workflowStep s e).active = []) ∨
    ((workflowStep s e).importInProgress = true ∧
      ∃ i, (workflowStep s e).active = [i]) := by
  cases e with
  | call id =>
    rcases h with ⟨hf, ha⟩ | ⟨hf, i, ha⟩
    · right
      simp [workflowStep, hf, ha]
    · right
      simp [workflowStep, hf, ha]
  | work id =>
    have hflag : (workflowStep s (WorkflowEvent.work id)).importInProgress =
        s.importInProgress := by
      simp only [workflowStep]
      split <;> rfl
    have hact : (workflowStep s (WorkflowEvent.work id)).active = s.active := by
      simp only [workflowStep]
      split <;> rfl
    rw [hflag, hact]
    exact h
  | complete id b =>
    rcases h with ⟨hf, ha⟩ | ⟨hf, i, ha⟩
    · have hs : workflowStep s (WorkflowEvent.complete id b) = s := by
        unfold workflowStep
        rw [ha]
        simp
      rw [hs]
      exact Or.inl ⟨hf, ha⟩
    · by_cases hid : i = id
      · left
        unfold workflowStep
        rw [ha, hid]
        simp
      · have hid2 : ¬ id = i := fun hh => hid hh.symm
        have hs : workflowStep s (WorkflowEvent.complete id b) = s := by
          unfold workflowStep
          rw [ha]
          simp [hid2]
        rw [hs]
        exact Or.inr ⟨hf, i, ha⟩

theorem runWorkflow_inv (events : List WorkflowEvent) :
    ((runWorkflow events).importInProgress = false ∧ (runWorkflow events).active = []) ∨
    ((runWorkflow events).importInProgress = true ∧
      ∃ i, (runWorkflow events).active = [i]) := by
  have main : ∀ (es : List WorkflowEvent) (s : WorkflowState),
      (s.importInProgress = false ∧ s.active = []) ∨
      (s.importInProgress = true ∧ ∃ i, s.active = [i]) →
      ((es.foldl workflowStep s).importInProgress = false ∧
        (es.foldl workflowStep s).active = []) ∨
      ((es.foldl workflowStep s).importInProgress = true ∧
        ∃ i, (es.foldl workflowStep s).active = [i]) := by
    intro es
    induction es with
    | nil => intro s h; exact h
    | cons e rest ih =>
      intro s h
      rw [List.foldl_cons]
      exact ih _ (workflowStep_inv s e h)
  exact main events initialWorkflowState (Or.inl ⟨rfl, rfl⟩)

/-- C9: at most one import is ever in flight — after any trace of workflow
events at most one accepted `processNoteFile` body is active; a further
call while the in-progress flag is set leaves the state unchanged except
for appending the caller to the rejected log (rejected immediately, not
queued, no side effect); and completion of the running body clears the
flag whether the body succeeded or threw. -/
theorem C9_mutual_exclusion :
    (∀ events : List WorkflowEvent, (runWorkflow events).active.length ≤ 1) ∧
    (∀ (events : List WorkflowEvent) (id : Nat),
        (runWorkflow events).importInProgress = true →
        workflowStep (runWorkflow events) (WorkflowEvent.call id) =
          { runWorkflow events with
              rejected := (runWorkflow events).rejected ++ [id] }) ∧
    (∀ (s : WorkflowState) (id : Nat) (success : Bool),
        id ∈ s.active →
        (workflowStep s (WorkflowEvent.complete id success)).importInProgress = false) := by
  refine ⟨?_, ?_, ?_⟩
  · intro events
    rcases runWorkflow_inv events with ⟨_, ha⟩ | ⟨_, i, ha⟩ <;> rw [ha] <;> simp
  · intro events id h
    simp only [workflowStep, h]
    rfl
  · intro s id b h
    have hc : s.active.contains id = true := by simpa using h
    unfold workflowStep
    simp [hc, h]

/-- Closed witness for C9: one accepted call sets the flag; a second call
while it runs is rejected, changing nothing but the rejected log. -/
theorem C9_mutual_exclusion_witness :
    (runWorkflow [WorkflowEvent.call 0]).importInProgress = true ∧
    workflowStep (runWorkflow [WorkflowEvent.call 0]) (WorkflowEvent.call 1) =
      { runWorkflow [WorkflowEvent.call 0] with
          rejected := (runWorkflow [WorkflowEvent.call 0]).rejected ++ [1] } :=
  ⟨by decide, C9_mutual_exclusion.2.1 [WorkflowEvent.call 0] 1 (by decide)⟩
